import Mathlib

/-!
# derp_vm: the instruction dispatcher and the three instruction families

A shallow embedding of `src/CPU.h` and `src/CPU.cpp`.

* `uint8_t` values are `Byte = Fin 256`, `uint32_t` values are `Word32 = Fin 2^32`;
  every conversion to one of them is an explicit `% 256` / `% 2^32` (`toByte`, `toWord32`).
* The 64-bit instruction word is a natural number; the decoder only looks at bits 0..55,
  so every statement proved for all naturals holds for all `uint64_t` words.
* A handler either returns (`Outcome.next`), calls `exit` (`Outcome.exit`), or evaluates
  an expression whose behaviour C++ leaves undefined (`Outcome.undefined`): an index
  outside `memory` or outside a handler table, a division or modulo by zero.
* `output` is the byte stream written to `stdout` by the two print handlers.
-/

namespace DerpVM

/-! ## Constants of `CPU.h` and `CPU.cpp` -/

def INSTRUCTION_SIZE_BITS : Nat := 64
def PHYSICAL_MEMORY_SIZE_BITS : Nat := 30
def PHYSICAL_MEMORY_SIZE : Nat := 1 <<< PHYSICAL_MEMORY_SIZE_BITS
def NUM_REGISTER_BITS : Nat := 8
def NUM_REGISTERS : Nat := 1 <<< NUM_REGISTER_BITS
def NUM_WORD_BITS : Nat := 8

def MemoryInstructionType : Nat := 0
def RegisterInstructionType : Nat := 1
def ImmediateInstructionType : Nat := 2
def InstructionTypesSize : Nat := 3
def NUM_INSTRUCTION_TYPE_SELECTION_BITS : Nat := 2
def NUM_PREDICATE_BITS : Nat := 1 + NUM_REGISTER_BITS

def MemoryInstructionsSize : Nat := 4
def NUM_MEMORY_INSTRUCTIONS_SELECTION_BITS : Nat := 2
def RegisterInstructionSize : Nat := 23
def NUM_REGISTRY_INSTRUCTIONS_SELECTION_BITS : Nat := 6
def ImmediateInstructionSize : Nat := 15
def NUM_IMMEDIATE_INSTRUCTIONS_SELECTION_BITS : Nat := 5

/-! ## Machine integers -/

/-- A `uint8_t`. -/
abbrev Byte := Fin 256

/-- A `uint32_t`. -/
abbrev Word32 := Fin 4294967296

/-- Conversion of an integer value to `uint8_t`. -/
def toByte (n : Nat) : Byte := ⟨n % 256, Nat.mod_lt n (by decide)⟩

/-- Conversion of an integer value to `uint32_t`. -/
def toWord32 (n : Nat) : Word32 := ⟨n % 4294967296, Nat.mod_lt n (by decide)⟩

/-- Unsigned 32-bit `a + b`. -/
def add32 (a b : Word32) : Word32 := toWord32 (a.val + b.val)

/-- Unsigned 32-bit `a - b`: `2^32 - b` is added to `a` and the sum is reduced modulo 2^32
(the summand `2^32 - b` comes first, so that the sum stays in normal form for a symbolic
`a`). -/
def sub32 (a b : Word32) : Word32 := toWord32 ((4294967296 - b.val) + a.val)

/-- The expression `(a << 24) | (b << 16) | (c << 8) | (d)` stored in a `uint32_t`: the
operands are promoted to `int`, and the conversion of the result to `uint32_t` keeps its
32-bit pattern, also when `a` is 128 or more. -/
def quad (a b c d : Byte) : Word32 :=
  toWord32 ((a.val <<< 24) ||| (b.val <<< 16) ||| (c.val <<< 8) ||| d.val)

/-! ## Machine state (`class CPU`) -/

structure CPU where
  memory : Fin PHYSICAL_MEMORY_SIZE → Byte
  registers : Fin NUM_REGISTERS → Byte
  stack_address : Word32
  program_counter : Word32
  exception_handler_routine_address : Word32
  exception_reason : Byte
  errored_program_counter : Word32
  /-- Bytes written to `stdout` so far (not a member of the class). -/
  output : List Byte

/-- Result of running a piece of the interpreter. -/
inductive Outcome where
  /-- The code returned, leaving the machine in this state. -/
  | next (cpu : CPU)
  /-- The code called `exit(value)`. -/
  | exit (value : Word32)
  /-- The code evaluated an expression with undefined behaviour. -/
  | undefined

/-- Sequencing: run `f` on the state an outcome returned with. -/
def Outcome.bind (o : Outcome) (f : CPU → Outcome) : Outcome :=
  match o with
  | Outcome.next c => f c
  | Outcome.exit v => Outcome.exit v
  | Outcome.undefined => Outcome.undefined

/-- The register named by a `uint8_t` index: `cpu.registers[i]`. -/
def reg (cpu : CPU) (i : Byte) : Byte := cpu.registers i

/-- The assignment `cpu.registers[i] = v`. -/
def setReg (cpu : CPU) (i : Byte) (v : Byte) : CPU :=
  { cpu with registers := Function.update cpu.registers i v }

/-- The read `cpu.memory[a]` for a `uint32_t` index; `none` when `a` is outside the array. -/
def readMem (cpu : CPU) (a : Word32) : Option Byte :=
  if h : a.val < PHYSICAL_MEMORY_SIZE then some (cpu.memory ⟨a.val, h⟩) else none

/-- The assignment `cpu.memory[a] = v` for a `uint32_t` index; undefined outside the array. -/
def writeMem (cpu : CPU) (a : Word32) (v : Byte) : Outcome :=
  if h : a.val < PHYSICAL_MEMORY_SIZE then
    Outcome.next { cpu with memory := Function.update cpu.memory ⟨a.val, h⟩ v }
  else Outcome.undefined

/-! ## Memory family -/

/-- Type of the handlers in `MI_insts` and `II_insts` (`MIType`, `IIType`). -/
abbrev MIType := CPU → Byte → Byte → Byte → Byte → Byte → Outcome

/-- Type of the handlers in `RI_insts` (`RIType`). -/
abbrev RIType := CPU → Byte → Byte → Byte → Byte → Outcome

abbrev IIType := MIType

def MILoadMemoryRegister (cpu : CPU) (val1 val2 val3 val4 val5 : Byte) : Outcome :=
  let value := quad (reg cpu val1) (reg cpu val2) (reg cpu val3) (reg cpu val4)
  writeMem cpu value (reg cpu val5)

def MILoadMemoryImmediate (cpu : CPU) (val1 val2 val3 val4 val5 : Byte) : Outcome :=
  let value := quad val1 val2 val3 val4
  match readMem cpu value with
  | some b => Outcome.next (setReg cpu val5 b)
  | none => Outcome.undefined

def MIStoreMemoryRegister (cpu : CPU) (val1 val2 val3 val4 val5 : Byte) : Outcome :=
  let value := quad (reg cpu val1) (reg cpu val2) (reg cpu val3) (reg cpu val4)
  writeMem cpu value (reg cpu val5)

def MIStoreMemoryImmediate (cpu : CPU) (val1 val2 val3 val4 val5 : Byte) : Outcome :=
  let value := quad val1 val2 val3 val4
  writeMem cpu value (reg cpu val5)

def MI_insts : List MIType :=
  [MILoadMemoryRegister, MILoadMemoryImmediate, MIStoreMemoryRegister, MIStoreMemoryImmediate]

/-! ## Register/ALU family -/

/-- Conversion of an integer value to `uint16_t`. -/
def toWord16 (n : Nat) : Nat := n % 65536

/-- Unsigned division `a / b` stored in a `uint8_t`; `none` when `b` is zero. -/
def divByte (a b : Byte) : Option Byte :=
  if b.val = 0 then none else some (toByte (a.val / b.val))

/-- Unsigned remainder `a % b` stored in a `uint8_t`; `none` when `b` is zero. -/
def modByte (a b : Byte) : Option Byte :=
  if b.val = 0 then none else some (toByte (a.val % b.val))

/-- The statement `cpu.registers[d] = q;` for a quotient or remainder `q`. -/
def storeQuotient (cpu : CPU) (d : Byte) (q : Option Byte) : Outcome :=
  match q with
  | some b => Outcome.next (setReg cpu d b)
  | none => Outcome.undefined

def RILoadImmediate (cpu : CPU) (val1 val2 _val3 _val4 : Byte) : Outcome :=
  Outcome.next (setReg cpu val1 val2)

def RILoadRegister (cpu : CPU) (val1 val2 _val3 _val4 : Byte) : Outcome :=
  Outcome.next (setReg cpu val1 (reg cpu val2))

def RIAddImmediate (cpu : CPU) (val1 val2 val3 _val4 : Byte) : Outcome :=
  Outcome.next (setReg cpu val1 (toByte ((reg cpu val2).val + val3.val)))

def RIAddRegister (cpu : CPU) (val1 val2 val3 _val4 : Byte) : Outcome :=
  Outcome.next (setReg cpu val1 (toByte ((reg cpu val2).val + (reg cpu val3).val)))

def RIAddImmediateSaveCarry (cpu : CPU) (val1 val2 val3 val4 : Byte) : Outcome :=
  let sum := toWord16 ((reg cpu val3).val + val4.val)
  let cpu1 := setReg cpu val1 (toByte (sum &&& 255))
  Outcome.next (setReg cpu1 val2 (toByte ((sum >>> 8) &&& 255)))

def RIAddRegisterSaveCarry (cpu : CPU) (val1 val2 val3 val4 : Byte) : Outcome :=
  let sum := toWord16 ((reg cpu val3).val + (reg cpu val4).val)
  let cpu1 := setReg cpu val1 (toByte (sum &&& 255))
  Outcome.next (setReg cpu1 val2 (toByte ((sum >>> 8) &&& 255)))

def RIMulImmediate (cpu : CPU) (val1 val2 val3 _val4 : Byte) : Outcome :=
  let product := toWord16 ((reg cpu val2).val * val3.val)
  Outcome.next (setReg cpu val1 (toByte (product &&& 255)))

def RIMulRegister (cpu : CPU) (val1 val2 val3 _val4 : Byte) : Outcome :=
  let product := toWord16 ((reg cpu val2).val * (reg cpu val3).val)
  Outcome.next (setReg cpu val1 (toByte (product &&& 255)))

def RIMulImmediateSaveCarry (cpu : CPU) (val1 val2 val3 val4 : Byte) : Outcome :=
  let product := toWord16 ((reg cpu val4).val * val3.val)
  let cpu1 := setReg cpu val1 (toByte (product &&& 255))
  Outcome.next (setReg cpu1 val2 (toByte ((product >>> 8) &&& 255)))

def RIMulRegisterSaveCarry (cpu : CPU) (val1 val2 val3 val4 : Byte) : Outcome :=
  let product := toWord16 ((reg cpu val4).val * (reg cpu val3).val)
  let cpu1 := setReg cpu val1 (toByte (product &&& 255))
  Outcome.next (setReg cpu1 val2 (toByte ((product >>> 8) &&& 255)))

def RIDivImmediateRegister (cpu : CPU) (val1 val2 val3 _val4 : Byte) : Outcome :=
  storeQuotient cpu val1 (divByte val2 (reg cpu val3))

def RIDivRegisterImmediate (cpu : CPU) (val1 val2 val3 _val4 : Byte) : Outcome :=
  storeQuotient cpu val1 (divByte (reg cpu val2) val3)

def RIDivRegisterRegister (cpu : CPU) (val1 val2 val3 _val4 : Byte) : Outcome :=
  storeQuotient cpu val1 (divByte (reg cpu val2) (reg cpu val3))

def RIModImmediateRegister (cpu : CPU) (val1 val2 val3 _val4 : Byte) : Outcome :=
  storeQuotient cpu val1 (modByte val2 (reg cpu val3))

def RIModRegisterImmediate (cpu : CPU) (val1 val2 val3 _val4 : Byte) : Outcome :=
  storeQuotient cpu val1 (modByte (reg cpu val2) val3)

def RIModRegisterRegister (cpu : CPU) (val1 val2 val3 _val4 : Byte) : Outcome :=
  storeQuotient cpu val1 (modByte (reg cpu val2) (reg cpu val3))

def RIAndImmediate (cpu : CPU) (val1 val2 val3 _val4 : Byte) : Outcome :=
  Outcome.next (setReg cpu val1 (toByte ((reg cpu val2).val &&& val3.val)))

def RIAndRegister (cpu : CPU) (val1 val2 val3 _val4 : Byte) : Outcome :=
  Outcome.next (setReg cpu val1 (toByte ((reg cpu val2).val &&& (reg cpu val3).val)))

def RIOrImmediate (cpu : CPU) (val1 val2 val3 _val4 : Byte) : Outcome :=
  Outcome.next (setReg cpu val1 (toByte ((reg cpu val2).val ||| val3.val)))

def RIOrRegister (cpu : CPU) (val1 val2 val3 _val4 : Byte) : Outcome :=
  Outcome.next (setReg cpu val1 (toByte ((reg cpu val2).val ||| (reg cpu val3).val)))

def RIXorImmediate (cpu : CPU) (val1 val2 val3 _val4 : Byte) : Outcome :=
  Outcome.next (setReg cpu val1 (toByte ((reg cpu val2).val ^^^ val3.val)))

def RIXorRegister (cpu : CPU) (val1 val2 val3 _val4 : Byte) : Outcome :=
  Outcome.next (setReg cpu val1 (toByte ((reg cpu val2).val ^^^ (reg cpu val3).val)))

/-- The value of `~x` is the `int` whose 32-bit pattern is `2^32 - 1 - x`. -/
def RIBitwiseComplement (cpu : CPU) (val1 val2 _val3 _val4 : Byte) : Outcome :=
  Outcome.next (setReg cpu val1 (toByte (4294967295 - (reg cpu val2).val)))

def RI_insts : List RIType :=
  [RILoadImmediate, RILoadRegister, RIAddImmediate, RIAddRegister,
   RIAddImmediateSaveCarry, RIAddRegisterSaveCarry, RIMulImmediate, RIMulRegister,
   RIMulImmediateSaveCarry, RIMulRegisterSaveCarry, RIDivImmediateRegister,
   RIDivRegisterImmediate, RIDivRegisterRegister, RIModImmediateRegister,
   RIModRegisterImmediate, RIModRegisterRegister, RIAndImmediate, RIAndRegister,
   RIOrImmediate, RIOrRegister, RIXorImmediate, RIXorRegister, RIBitwiseComplement]

/-! ## Immediate/Control family -/

def IIJumpImmediateQuad (cpu : CPU) (val1 val2 val3 val4 _val5 : Byte) : Outcome :=
  let value := quad val1 val2 val3 val4
  let cpu1 := { cpu with program_counter := add32 cpu.program_counter value }
  Outcome.next { cpu1 with program_counter := sub32 cpu1.program_counter (toWord32 8) }

def IIJumpRegisterQuad (cpu : CPU) (val1 val2 val3 val4 _val5 : Byte) : Outcome :=
  let value := quad (reg cpu val1) (reg cpu val2) (reg cpu val3) (reg cpu val4)
  let cpu1 := { cpu with program_counter := sub32 cpu.program_counter value }
  Outcome.next { cpu1 with program_counter := sub32 cpu1.program_counter (toWord32 8) }

def IIJumpBackImmediateQuad (cpu : CPU) (val1 val2 val3 val4 _val5 : Byte) : Outcome :=
  let value := quad val1 val2 val3 val4
  let cpu1 := { cpu with program_counter := sub32 cpu.program_counter value }
  Outcome.next { cpu1 with program_counter := sub32 cpu1.program_counter (toWord32 8) }

def IIJumpBackRegisterQuad (cpu : CPU) (val1 val2 val3 val4 _val5 : Byte) : Outcome :=
  let value := quad (reg cpu val1) (reg cpu val2) (reg cpu val3) (reg cpu val4)
  let cpu1 := { cpu with program_counter := sub32 cpu.program_counter value }
  Outcome.next { cpu1 with program_counter := sub32 cpu1.program_counter (toWord32 8) }

def IIHaltImmediateQuad (_cpu : CPU) (val1 val2 val3 val4 _val5 : Byte) : Outcome :=
  let value := quad val1 val2 val3 val4
  Outcome.exit value

def IIHaltRegisterQuad (cpu : CPU) (val1 val2 val3 val4 _val5 : Byte) : Outcome :=
  let value := quad (reg cpu val1) (reg cpu val2) (reg cpu val3) (reg cpu val4)
  Outcome.exit value

def IISetStackAddressImmediateQuadAddress (cpu : CPU) (val1 val2 val3 val4 _val5 : Byte) :
    Outcome :=
  let value := quad val1 val2 val3 val4
  Outcome.next { cpu with stack_address := value }

def IISetStackAddressRegisterQuadAddress (cpu : CPU) (val1 val2 val3 val4 _val5 : Byte) :
    Outcome :=
  let value := quad (reg cpu val1) (reg cpu val2) (reg cpu val3) (reg cpu val4)
  Outcome.next { cpu with stack_address := value }

/-- The statement `cpu.memory[cpu.stack_address++] = v;`. -/
def pushByte (cpu : CPU) (v : Byte) : Outcome :=
  (writeMem cpu cpu.stack_address v).bind fun c =>
    Outcome.next { c with stack_address := add32 c.stack_address (toWord32 1) }

/-- The `switch (val1)` of the two push handlers: the cases are laid out in the order
`1, 2, 3, default, 0` and none ends in `break`, so each falls through to the next. -/
def pushSwitch (val1 : Byte) (b1 b2 b3 bDefault b0 : Byte) (cpu : CPU) : Outcome :=
  let case0 := fun c => pushByte c b0
  let caseDefault := fun c => (pushByte c bDefault).bind case0
  let case3 := fun c => (pushByte c b3).bind caseDefault
  let case2 := fun c => (pushByte c b2).bind case3
  let case1 := fun c => (pushByte c b1).bind case2
  match val1.val with
  | 1 => case1 cpu
  | 2 => case2 cpu
  | 3 => case3 cpu
  | 0 => case0 cpu
  | _ => caseDefault cpu

def IIPushStackRegisterArguments (cpu : CPU) (val1 val2 val3 val4 val5 : Byte) : Outcome :=
  (pushByte cpu (reg cpu val1)).bind fun c =>
    pushSwitch val1 (reg c val2) (reg c val3) (reg c val4) (reg c val5) (reg c val1) c

def IIPushStackImmediateArguments (cpu : CPU) (val1 val2 val3 val4 val5 : Byte) : Outcome :=
  pushSwitch val1 val2 val3 val4 val5 val1 cpu

def IIPopStack (cpu : CPU) (_val1 _val2 _val3 _val4 _val5 : Byte) : Outcome :=
  let cpu1 := { cpu with stack_address := sub32 cpu.stack_address (toWord32 1) }
  match readMem cpu1 cpu1.stack_address with
  | some num_args =>
    Outcome.next { cpu1 with
      stack_address := sub32 cpu1.stack_address
        (toWord32 (if num_args.val ≥ 4 then 4 else num_args.val)) }
  | none => Outcome.undefined

def IIPrintToScreenImmediate (cpu : CPU) (val1 _val2 _val3 _val4 _val5 : Byte) : Outcome :=
  Outcome.next { cpu with output := cpu.output ++ [reg cpu val1] }

def IIPrintToScreenRegister (cpu : CPU) (val1 _val2 _val3 _val4 _val5 : Byte) : Outcome :=
  Outcome.next { cpu with output := cpu.output ++ [reg cpu val1] }

def IISetInterruptHandlerRoutineImmediate (cpu : CPU) (val1 val2 val3 val4 _val5 : Byte) :
    Outcome :=
  let value := quad val1 val2 val3 val4
  Outcome.next { cpu with exception_handler_routine_address := value }

def IISaveInterruptReasonRegister (cpu : CPU) (val1 _val2 _val3 _val4 _val5 : Byte) : Outcome :=
  Outcome.next (setReg cpu val1 cpu.exception_reason)

def II_insts : List IIType :=
  [IIJumpImmediateQuad, IIJumpRegisterQuad, IIJumpBackRegisterQuad, IIJumpBackRegisterQuad,
   IIHaltImmediateQuad, IIHaltRegisterQuad, IISetStackAddressImmediateQuadAddress,
   IISetStackAddressRegisterQuadAddress, IIPushStackRegisterArguments,
   IIPushStackImmediateArguments, IIPopStack, IIPrintToScreenImmediate,
   IIPrintToScreenRegister, IISetInterruptHandlerRoutineImmediate,
   IISaveInterruptReasonRegister]

/-! ## The dispatcher -/

/-- The call `MI_insts[func](*this, ...)` or `II_insts[func](*this, ...)`: indexing past the
end of the table is undefined. -/
def callTable5 (table : List MIType) (func : Nat) (cpu : CPU) (v1 v2 v3 v4 v5 : Byte) :
    Outcome :=
  match table[func]? with
  | some handler => handler cpu v1 v2 v3 v4 v5
  | none => Outcome.undefined

/-- The call `RI_insts[func](*this, ...)`. -/
def callTable4 (table : List RIType) (func : Nat) (cpu : CPU) (v1 v2 v3 v4 : Byte) : Outcome :=
  match table[func]? with
  | some handler => handler cpu v1 v2 v3 v4
  | none => Outcome.undefined

/-- The final statement `program_counter += 8;` of `perform_instruction`. -/
def advance (cpu : CPU) : Outcome :=
  Outcome.next { cpu with program_counter := add32 cpu.program_counter (toWord32 8) }

def perform_instruction (cpu : CPU) (instruction : Nat) : Outcome :=
  let has_predicate := instruction &&& 1
  let predicate_register := (instruction &&& ((1 <<< NUM_PREDICATE_BITS) - 1)) >>> 1
  let body : Outcome :=
    if has_predicate = 0 ∨ reg cpu (toByte predicate_register) ≠ 0 then
      let pure_instruction := instruction >>> NUM_PREDICATE_BITS
      let type := pure_instruction &&& ((1 <<< NUM_INSTRUCTION_TYPE_SELECTION_BITS) - 1)
      let args := pure_instruction >>> NUM_INSTRUCTION_TYPE_SELECTION_BITS
      if type = MemoryInstructionType then
        let func := args &&& ((1 <<< NUM_MEMORY_INSTRUCTIONS_SELECTION_BITS) - 1)
        let args := args >>> NUM_MEMORY_INSTRUCTIONS_SELECTION_BITS
        let val_1 := toByte (args &&& ((1 <<< NUM_REGISTER_BITS) - 1))
        let args := args >>> NUM_REGISTER_BITS
        let val_2 := toByte (args &&& ((1 <<< NUM_REGISTER_BITS) - 1))
        let args := args >>> NUM_REGISTER_BITS
        let val_3 := toByte (args &&& ((1 <<< NUM_REGISTER_BITS) - 1))
        let args := args >>> NUM_REGISTER_BITS
        let val_4 := toByte (args &&& ((1 <<< NUM_REGISTER_BITS) - 1))
        let args := args >>> NUM_REGISTER_BITS
        let val_5 := toByte (args &&& ((1 <<< NUM_REGISTER_BITS) - 1))
        if func < MemoryInstructionsSize then
          callTable5 MI_insts func cpu val_1 val_2 val_3 val_4 val_5
        else Outcome.next cpu
      else if type = RegisterInstructionType then
        let func := args &&& ((1 <<< NUM_REGISTRY_INSTRUCTIONS_SELECTION_BITS) - 1)
        let args := args >>> NUM_REGISTRY_INSTRUCTIONS_SELECTION_BITS
        let val_1 := toByte (args &&& ((1 <<< NUM_REGISTER_BITS) - 1))
        let args := args >>> NUM_REGISTER_BITS
        let val_2 := toByte (args &&& ((1 <<< NUM_REGISTER_BITS) - 1))
        let args := args >>> NUM_REGISTER_BITS
        let val_3 := toByte (args &&& ((1 <<< NUM_REGISTER_BITS) - 1))
        let args := args >>> NUM_REGISTER_BITS
        let val_4 := toByte (args &&& ((1 <<< NUM_REGISTER_BITS) - 1))
        if func < RegisterInstructionSize then
          callTable4 RI_insts func cpu val_1 val_2 val_3 val_4
        else Outcome.next cpu
      else if type = ImmediateInstructionType then
        let func := args &&& ((1 <<< NUM_IMMEDIATE_INSTRUCTIONS_SELECTION_BITS) - 1)
        let args := args >>> NUM_IMMEDIATE_INSTRUCTIONS_SELECTION_BITS
        let val_1 := toByte (args &&& ((1 <<< NUM_REGISTER_BITS) - 1))
        let args := args >>> NUM_REGISTER_BITS
        let val_2 := toByte (args &&& ((1 <<< NUM_REGISTER_BITS) - 1))
        let args := args >>> NUM_REGISTER_BITS
        let val_3 := toByte (args &&& ((1 <<< NUM_REGISTER_BITS) - 1))
        let args := args >>> NUM_REGISTER_BITS
        let val_4 := toByte (args &&& ((1 <<< NUM_REGISTER_BITS) - 1))
        let args := args >>> NUM_REGISTER_BITS
        let val_5 := toByte (args &&& ((1 <<< NUM_REGISTER_BITS) - 1))
        if func < RegisterInstructionSize then
          callTable5 II_insts func cpu val_1 val_2 val_3 val_4 val_5
        else Outcome.next cpu
      else
        Outcome.next cpu
    else Outcome.next cpu
  body.bind advance

/-- A machine with zeroed memory and registers, used to evaluate the code on examples. -/
def zeroCPU : CPU :=
  { memory := fun _ => 0, registers := fun _ => 0, stack_address := 0, program_counter := 0,
    exception_handler_routine_address := 0, exception_reason := 0,
    errored_program_counter := 0, output := [] }

/-- Registers all zero except register 7, which holds 1. -/
def predicateCPU : CPU :=
  { zeroCPU with registers := fun i => if i.val = 7 then 1 else 0 }

/-- Registers all zero except register 3, which holds 8; `program_counter` is 16. -/
def jumpCPU : CPU :=
  { zeroCPU with registers := fun i => if i.val = 3 then 8 else 0, program_counter := 16 }

/-- Registers all zero except register 0, which holds 64. -/
def highCPU : CPU :=
  { zeroCPU with registers := fun i => if i.val = 0 then 64 else 0 }

/-- Memory all zero except the last byte, which holds 9; `stack_address` is 2^30. -/
def stackCPU : CPU :=
  { zeroCPU with
    memory := fun i => if i.val = 1073741823 then 9 else 0,
    stack_address := toWord32 1073741824 }

/-- Registers all zero except register 5, which holds 7. -/
def loadCPU : CPU :=
  { zeroCPU with registers := fun i => if i.val = 5 then 7 else 0 }

/-- Pushing the bytes of a list one after the other with `pushByte`. -/
def pushBytes : List Byte → CPU → Outcome
  | [], cpu => Outcome.next cpu
  | b :: bs, cpu => (pushByte cpu b).bind (pushBytes bs)

/-- The bytes `pushSwitch` pushes, in order: entering at `case 1` runs all five statements,
`case 2` the last four, `case 3` the last three, `default` the last two, `case 0` the last. -/
def pushedBytes (val1 : Byte) (b1 b2 b3 bDefault b0 : Byte) : List Byte :=
  match val1.val with
  | 1 => [b1, b2, b3, bDefault, b0]
  | 2 => [b2, b3, bDefault, b0]
  | 3 => [b3, bDefault, b0]
  | 0 => [b0]
  | _ => [bDefault, b0]

/-- Two states agree on everything but `memory` and `stack_address`. -/
def agreeOffStack (c cpu : CPU) : Prop :=
  c.registers = cpu.registers ∧ c.program_counter = cpu.program_counter ∧
  c.exception_handler_routine_address = cpu.exception_handler_routine_address ∧
  c.exception_reason = cpu.exception_reason ∧
  c.errored_program_counter = cpu.errored_program_counter ∧ c.output = cpu.output

/-- The state `c` has the `program_counter` and the three trap fields of `cpu`. -/
def Inert (cpu c : CPU) : Prop :=
  c.program_counter = cpu.program_counter ∧
  c.exception_reason = cpu.exception_reason ∧
  c.errored_program_counter = cpu.errored_program_counter ∧
  c.exception_handler_routine_address = cpu.exception_handler_routine_address

/-- The outcome is a return in a state satisfying `P`. -/
def Outcome.returnsIn (o : Outcome) (P : CPU → Prop) : Prop :=
  ∃ c, o = Outcome.next c ∧ P c

/-- The outcome is not an exit, and when it is a return the state satisfies `P`. -/
def Outcome.returnsWith (o : Outcome) (P : CPU → Prop) : Prop :=
  match o with
  | Outcome.next c => P c
  | Outcome.exit _ => False
  | Outcome.undefined => True

/-- When the outcome is a return, the state satisfies `P`. -/
def Outcome.stateSatisfies (o : Outcome) (P : CPU → Prop) : Prop :=
  match o with
  | Outcome.next c => P c
  | Outcome.exit _ => True
  | Outcome.undefined => True

/-- Registers all zero except register 0, which holds 200, and register 1, which holds 7. -/
def divCPU : CPU :=
  { zeroCPU with registers := fun i => if i.val = 0 then 200 else if i.val = 1 then 7 else 0 }

/-- The zeroed machine with `stack_address` = 3. -/
def framedCPU : CPU :=
  { zeroCPU with stack_address := toWord32 3 }

/-- The state `c` differs from `cpu` at most in `program_counter` and in the registers
selected by `written`. -/
def RegisterFrame (cpu c : CPU) (written : Byte → Prop) : Prop :=
  c.memory = cpu.memory ∧ c.stack_address = cpu.stack_address ∧
  c.exception_handler_routine_address = cpu.exception_handler_routine_address ∧
  c.exception_reason = cpu.exception_reason ∧
  c.errored_program_counter = cpu.errored_program_counter ∧
  c.output = cpu.output ∧
  ∀ r : Byte, ¬ written r → reg c r = reg cpu r

/-- The dispatcher with every field written as a quotient and remainder of the word. -/
def dispatch (cpu : CPU) (w : Nat) : Outcome :=
  if w % 2 = 0 ∨ reg cpu (toByte (w / 2)) ≠ 0 then
    if w / 512 % 4 = 0 then
      callTable5 MI_insts (w / 2048 % 4) cpu (toByte (w / 8192)) (toByte (w / 2097152))
        (toByte (w / 536870912)) (toByte (w / 137438953472)) (toByte (w / 35184372088832))
    else if w / 512 % 4 = 1 then
      if w / 2048 % 64 < 23 then
        callTable4 RI_insts (w / 2048 % 64) cpu (toByte (w / 131072)) (toByte (w / 33554432))
          (toByte (w / 8589934592)) (toByte (w / 2199023255552))
      else Outcome.next cpu
    else if w / 512 % 4 = 2 then
      if w / 2048 % 32 < 23 then
        callTable5 II_insts (w / 2048 % 32) cpu (toByte (w / 65536)) (toByte (w / 16777216))
          (toByte (w / 4294967296)) (toByte (w / 1099511627776))
          (toByte (w / 281474976710656))
      else Outcome.next cpu
    else Outcome.next cpu
  else Outcome.next cpu

/-! ## Instruction words in the documented layout -/

/-- Memory-family word as laid out in section 4.1 of the spec: `has_predicate` at bit 0, the
predicate register at bits 1-8, family 0 at bits 9-10, the sub-opcode at bits 11-12, five
bytes at bits 13, 21, 29, 37, 45 and anything above. -/
def layoutMemory (hp : Nat) (p : Byte) (s : Nat) (v1 v2 v3 v4 v5 : Byte) (hi : Nat) : Nat :=
  hp + 2 * p.val + 2 ^ 9 * 0 + 2 ^ 11 * s + 2 ^ 13 * v1.val + 2 ^ 21 * v2.val + 2 ^ 29 * v3.val
    + 2 ^ 37 * v4.val + 2 ^ 45 * v5.val + 2 ^ 53 * hi

/-- Register/ALU-family word: family 1 at bits 9-10, sub-opcode at bits 11-16, four bytes at
bits 17, 25, 33, 41 and anything above. -/
def layoutRegister (hp : Nat) (p : Byte) (s : Nat) (v1 v2 v3 v4 : Byte) (hi : Nat) : Nat :=
  hp + 2 * p.val + 2 ^ 9 * 1 + 2 ^ 11 * s + 2 ^ 17 * v1.val + 2 ^ 25 * v2.val + 2 ^ 33 * v3.val
    + 2 ^ 41 * v4.val + 2 ^ 49 * hi

/-- Immediate/Control-family word: family 2 at bits 9-10, sub-opcode at bits 11-15, five
bytes at bits 16, 24, 32, 40, 48 and anything above. -/
def layoutImmediate (hp : Nat) (p : Byte) (s : Nat) (v1 v2 v3 v4 v5 : Byte) (hi : Nat) : Nat :=
  hp + 2 * p.val + 2 ^ 9 * 2 + 2 ^ 11 * s + 2 ^ 16 * v1.val + 2 ^ 24 * v2.val + 2 ^ 32 * v3.val
    + 2 ^ 40 * v4.val + 2 ^ 48 * v5.val + 2 ^ 56 * hi

/-- The number the spec calls a quad (section 4.3, `addr = (b0<<24)|(b1<<16)|(b2<<8)|b3`, and
the glossary): the 32-bit value assembled big-endian from four 8-bit fields. -/
def bigEndian32 (b0 b1 b2 b3 : Byte) : Nat :=
  b0.val * 2 ^ 24 + b1.val * 2 ^ 16 + b2.val * 2 ^ 8 + b3.val

/-- The unpredicated `SetInterruptHandlerRoutineImmediate` word with bytes 1, 2, 3, 4. -/
def handlerWord : Nat := layoutImmediate 0 0 13 1 2 3 4 0 0

/-- The zeroed machine after `handlerWord`. -/
def handlerCPU : CPU :=
  { zeroCPU with
    exception_handler_routine_address := toWord32 (bigEndian32 1 2 3 4),
    program_counter := toWord32 (zeroCPU.program_counter.val + 8) }

/-! ## Auxiliary facts -/

theorem and_mask (w k : Nat) : w &&& ((1 <<< k) - 1) = w % 2 ^ k := by
  rw [Nat.one_shiftLeft]; exact Nat.and_pow_two_sub_one_eq_mod w k

theorem toByte_congr {a b : Nat} (h : a % 256 = b % 256) : toByte a = toByte b := by
  unfold toByte; exact Fin.ext h

theorem toByte_mod (n : Nat) : toByte (n % 256) = toByte n :=
  toByte_congr (Nat.mod_mod n 256)

theorem toByte_val (b : Byte) : toByte b.val = b := by
  unfold toByte; exact Fin.ext (Nat.mod_eq_of_lt b.isLt)

theorem toByte_pred (w : Nat) : toByte (w % 512 / 2) = toByte (w / 2) :=
  toByte_congr (by omega)

theorem perform_instruction_eq (cpu : CPU) (w : Nat) :
    perform_instruction cpu w = (dispatch cpu w).bind advance := by
  have h4 : w / 2048 % 4 < 4 := Nat.mod_lt _ (by decide)
  unfold perform_instruction dispatch
  simp only [NUM_PREDICATE_BITS, NUM_REGISTER_BITS, NUM_INSTRUCTION_TYPE_SELECTION_BITS,
    NUM_MEMORY_INSTRUCTIONS_SELECTION_BITS, NUM_REGISTRY_INSTRUCTIONS_SELECTION_BITS,
    NUM_IMMEDIATE_INSTRUCTIONS_SELECTION_BITS, MemoryInstructionType, RegisterInstructionType,
    ImmediateInstructionType, MemoryInstructionsSize, RegisterInstructionSize,
    and_mask, Nat.and_one_is_mod, Nat.shiftRight_eq_div_pow, Nat.div_div_eq_div_mul]
  norm_num [toByte_mod, toByte_pred, h4]

theorem toByte_of_mod {n : Nat} {v : Byte} (h : n % 256 = v.val) : toByte n = v := by
  unfold toByte; exact Fin.ext h

theorem dispatch_layoutMemory (cpu : CPU) (p : Byte) (s : Nat) (v1 v2 v3 v4 v5 : Byte)
    (hi : Nat) (hs : s < 4) :
    dispatch cpu (layoutMemory 0 p s v1 v2 v3 v4 v5 hi) =
      callTable5 MI_insts s cpu v1 v2 v3 v4 v5 := by
  have hp := p.isLt; have h1 := v1.isLt; have h2 := v2.isLt; have h3 := v3.isLt
  have h4 := v4.isLt; have h5 := v5.isLt
  generalize hw : layoutMemory 0 p s v1 v2 v3 v4 v5 hi = w
  unfold layoutMemory at hw
  norm_num at hw
  have e0 : w % 2 = 0 := by omega
  have e1 : w / 512 % 4 = 0 := by omega
  have e2 : w / 2048 % 4 = s := by omega
  have b1 : toByte (w / 8192) = v1 := toByte_of_mod (by omega)
  have b2 : toByte (w / 2097152) = v2 := toByte_of_mod (by omega)
  have b3 : toByte (w / 536870912) = v3 := toByte_of_mod (by omega)
  have b4 : toByte (w / 137438953472) = v4 := toByte_of_mod (by omega)
  have b5 : toByte (w / 35184372088832) = v5 := toByte_of_mod (by omega)
  unfold dispatch
  simp only [e0, e1, e2, b1, b2, b3, b4, b5, true_or, if_true]

theorem dispatch_layoutRegister (cpu : CPU) (p : Byte) (s : Nat) (v1 v2 v3 v4 : Byte)
    (hi : Nat) (hs : s < 23) :
    dispatch cpu (layoutRegister 0 p s v1 v2 v3 v4 hi) =
      callTable4 RI_insts s cpu v1 v2 v3 v4 := by
  have hp := p.isLt; have h1 := v1.isLt; have h2 := v2.isLt; have h3 := v3.isLt
  have h4 := v4.isLt
  generalize hw : layoutRegister 0 p s v1 v2 v3 v4 hi = w
  unfold layoutRegister at hw
  norm_num at hw
  have e0 : w % 2 = 0 := by omega
  have e1 : w / 512 % 4 = 1 := by omega
  have e2 : w / 2048 % 64 = s := by omega
  have b1 : toByte (w / 131072) = v1 := toByte_of_mod (by omega)
  have b2 : toByte (w / 33554432) = v2 := toByte_of_mod (by omega)
  have b3 : toByte (w / 8589934592) = v3 := toByte_of_mod (by omega)
  have b4 : toByte (w / 2199023255552) = v4 := toByte_of_mod (by omega)
  unfold dispatch
  simp only [e0, e1, e2, b1, b2, b3, b4, true_or, if_true, hs]
  simp

theorem dispatch_layoutImmediate (cpu : CPU) (p : Byte) (s : Nat) (v1 v2 v3 v4 v5 : Byte)
    (hi : Nat) (hs : s < 23) :
    dispatch cpu (layoutImmediate 0 p s v1 v2 v3 v4 v5 hi) =
      callTable5 II_insts s cpu v1 v2 v3 v4 v5 := by
  have hp := p.isLt; have h1 := v1.isLt; have h2 := v2.isLt; have h3 := v3.isLt
  have h4 := v4.isLt; have h5 := v5.isLt
  generalize hw : layoutImmediate 0 p s v1 v2 v3 v4 v5 hi = w
  unfold layoutImmediate at hw
  norm_num at hw
  have e0 : w % 2 = 0 := by omega
  have e1 : w / 512 % 4 = 2 := by omega
  have e2 : w / 2048 % 32 = s := by omega
  have b1 : toByte (w / 65536) = v1 := toByte_of_mod (by omega)
  have b2 : toByte (w / 16777216) = v2 := toByte_of_mod (by omega)
  have b3 : toByte (w / 4294967296) = v3 := toByte_of_mod (by omega)
  have b4 : toByte (w / 1099511627776) = v4 := toByte_of_mod (by omega)
  have b5 : toByte (w / 281474976710656) = v5 := toByte_of_mod (by omega)
  unfold dispatch
  simp only [e0, e1, e2, b1, b2, b3, b4, b5, true_or, if_true, hs]
  simp

theorem or_bytes (a b c d : Nat) (hb : b < 256) (hc : c < 256) (hd : d < 256) :
    (a <<< 24) ||| (b <<< 16) ||| (c <<< 8) ||| d = a * 2 ^ 24 + b * 2 ^ 16 + c * 2 ^ 8 + d := by
  have e1 : (c <<< 8) ||| d = c * 2 ^ 8 + d := by
    rw [Nat.shiftLeft_eq, Nat.mul_comm c, ← Nat.mul_add_lt_is_or (by omega) c]
  have e2 : (b <<< 16) ||| (c * 2 ^ 8 + d) = b * 2 ^ 16 + (c * 2 ^ 8 + d) := by
    rw [Nat.shiftLeft_eq, Nat.mul_comm b, ← Nat.mul_add_lt_is_or (by omega) b]
  have e3 : (a <<< 24) ||| (b * 2 ^ 16 + (c * 2 ^ 8 + d))
      = a * 2 ^ 24 + (b * 2 ^ 16 + (c * 2 ^ 8 + d)) := by
    rw [Nat.shiftLeft_eq, Nat.mul_comm a, ← Nat.mul_add_lt_is_or (by omega) a]
  rw [Nat.or_assoc, Nat.or_assoc, e1, e2, e3]
  omega

theorem quad_val (b0 b1 b2 b3 : Byte) : (quad b0 b1 b2 b3).val = bigEndian32 b0 b1 b2 b3 := by
  have h0 := b0.isLt; have h1 := b1.isLt; have h2 := b2.isLt; have h3 := b3.isLt
  unfold quad toWord32 bigEndian32
  simp only [or_bytes _ _ _ _ h1 h2 h3]
  omega

theorem bigEndian32_lt (b0 b1 b2 b3 : Byte) : bigEndian32 b0 b1 b2 b3 < 4294967296 := by
  have h0 := b0.isLt; have h1 := b1.isLt; have h2 := b2.isLt; have h3 := b3.isLt
  unfold bigEndian32; omega

theorem toWord32_congr {a b : Nat} (h : a % 4294967296 = b % 4294967296) :
    toWord32 a = toWord32 b := by
  unfold toWord32; exact Fin.ext h

theorem toWord32_val_small {n : Nat} (h : n < 4294967296) : (toWord32 n).val = n := by
  unfold toWord32; exact Nat.mod_eq_of_lt h

theorem advance_eq (cpu : CPU) :
    advance cpu =
      Outcome.next { cpu with program_counter := toWord32 (cpu.program_counter.val + 8) } := by
  unfold advance add32
  rw [toWord32_val_small (by decide : 8 < 4294967296)]

theorem dispatch_congr (cpu : CPU) (w w' : Nat) (hq : w' / 512 = w / 512)
    (hexec : (w' % 2 = 0 ∨ reg cpu (toByte (w' / 2)) ≠ 0) ↔
      (w % 2 = 0 ∨ reg cpu (toByte (w / 2)) ≠ 0)) :
    dispatch cpu w' = dispatch cpu w := by
  have q1 : w' / 2048 = w / 2048 := by omega
  have q2 : w' / 8192 = w / 8192 := by omega
  have q3 : w' / 2097152 = w / 2097152 := by omega
  have q4 : w' / 536870912 = w / 536870912 := by omega
  have q5 : w' / 137438953472 = w / 137438953472 := by omega
  have q6 : w' / 35184372088832 = w / 35184372088832 := by omega
  have q7 : w' / 131072 = w / 131072 := by omega
  have q8 : w' / 33554432 = w / 33554432 := by omega
  have q9 : w' / 8589934592 = w / 8589934592 := by omega
  have q10 : w' / 2199023255552 = w / 2199023255552 := by omega
  have q11 : w' / 65536 = w / 65536 := by omega
  have q12 : w' / 16777216 = w / 16777216 := by omega
  have q13 : w' / 4294967296 = w / 4294967296 := by omega
  have q14 : w' / 1099511627776 = w / 1099511627776 := by omega
  have q15 : w' / 281474976710656 = w / 281474976710656 := by omega
  unfold dispatch
  simp only [hq, q1, q2, q3, q4, q5, q6, q7, q8, q9, q10, q11, q12, q13, q14, q15, hexec]

theorem callTable5_some (table : List MIType) (func : Nat) (handler : MIType)
    (h : table[func]? = some handler) (cpu : CPU) (v1 v2 v3 v4 v5 : Byte) :
    callTable5 table func cpu v1 v2 v3 v4 v5 = handler cpu v1 v2 v3 v4 v5 := by
  unfold callTable5; rw [h]

theorem callTable4_some (table : List RIType) (func : Nat) (handler : RIType)
    (h : table[func]? = some handler) (cpu : CPU) (v1 v2 v3 v4 : Byte) :
    callTable4 table func cpu v1 v2 v3 v4 = handler cpu v1 v2 v3 v4 := by
  unfold callTable4; rw [h]

/-! ## Predication -/

/-- C1: when bit 0 (`has_predicate`) of the word is 1 and the register named by bits 1-8
holds 0, `perform_instruction` returns normally (it does not halt) in the state that differs
from the old one only in `program_counter`, which is the old value plus 8 modulo 2^32;
memory, registers, `stack_address`, the three trap fields and the output are untouched,
whatever the other bits of the word are. -/
theorem predicated_false_only_advances (cpu : CPU) (w : Nat)
    (hbit : w % 2 = 1) (hreg : cpu.registers (toByte (w / 2)) = 0) :
    perform_instruction cpu w =
      Outcome.next { cpu with program_counter := toWord32 (cpu.program_counter.val + 8) } := by
  have hne : w % 2 ≠ 0 := by omega
  have hdis : dispatch cpu w = Outcome.next cpu := by
    unfold dispatch reg
    simp [hne, hreg]
  rw [perform_instruction_eq, hdis]
  exact advance_eq cpu

theorem predicated_false_only_advances_witness :
    perform_instruction zeroCPU 18446744073709551615 =
      Outcome.next { zeroCPU with program_counter := toWord32 (zeroCPU.program_counter.val + 8) } :=
  predicated_false_only_advances zeroCPU 18446744073709551615 (by decide) rfl

/-- C2: with `has_predicate` = 0 the outcome of `perform_instruction` is the same for any two
words that agree on bit 0 and on bits 9 and up (it does not depend on bits 1-8); with
`has_predicate` = 1 and a non-zero predicate register the outcome is that of the word with
bits 0-8 cleared. -/
theorem predicate_header_transparent (cpu : CPU) (w : Nat) :
    (w % 2 = 0 → ∀ w2 : Nat, w2 % 2 = 0 → w2 / 512 = w / 512 →
        perform_instruction cpu w2 = perform_instruction cpu w) ∧
    (w % 2 = 1 → cpu.registers (toByte (w / 2)) ≠ 0 →
        perform_instruction cpu w = perform_instruction cpu (w / 512 * 512)) := by
  constructor
  · intro h0 w2 h2 hq
    rw [perform_instruction_eq, perform_instruction_eq,
      dispatch_congr cpu w w2 hq (by simp [h0, h2])]
  · intro _ hreg
    have hreg2 : reg cpu (toByte (w / 2)) ≠ 0 := hreg
    rw [perform_instruction_eq, perform_instruction_eq]
    have hq : w / 512 * 512 / 512 = w / 512 := by omega
    have hz : w / 512 * 512 % 2 = 0 := by omega
    rw [dispatch_congr cpu w (w / 512 * 512) hq (by simp [hz, hreg2])]

theorem predicate_header_transparent_witness :
    perform_instruction predicateCPU 3472 = perform_instruction predicateCPU 3072 ∧
    perform_instruction predicateCPU 3087 = perform_instruction predicateCPU (3087 / 512 * 512) :=
  ⟨(predicate_header_transparent predicateCPU 3072).1 (by decide) 3472 (by decide) (by decide),
   (predicate_header_transparent predicateCPU 3087).2 (by decide) (by decide)⟩

/-! ## Decoding -/

/-- C3: for an unpredicated word in the documented layout (family at bits 9-10, the family's
sub-opcode field, then the operand bytes, any value in the bits above), with a sub-opcode
below the size of the family's table, `perform_instruction` is the handler stored at that
index of the family's table applied to the operand bytes, followed by the `+= 8` on
`program_counter` (which is not reached when the handler exits). -/
theorem decoder_recovers_layout (cpu : CPU) (p : Byte) (s : Nat) (v1 v2 v3 v4 v5 : Byte)
    (hi : Nat) :
    (s < 4 → ∃ handler, MI_insts[s]? = some handler ∧
      perform_instruction cpu (layoutMemory 0 p s v1 v2 v3 v4 v5 hi) =
        (handler cpu v1 v2 v3 v4 v5).bind advance) ∧
    (s < 23 → ∃ handler, RI_insts[s]? = some handler ∧
      perform_instruction cpu (layoutRegister 0 p s v1 v2 v3 v4 hi) =
        (handler cpu v1 v2 v3 v4).bind advance) ∧
    (s < 15 → ∃ handler, II_insts[s]? = some handler ∧
      perform_instruction cpu (layoutImmediate 0 p s v1 v2 v3 v4 v5 hi) =
        (handler cpu v1 v2 v3 v4 v5).bind advance) := by
  refine ⟨fun hs => ?_, fun hs => ?_, fun hs => ?_⟩
  · have hex : ∃ handler, MI_insts[s]? = some handler := by
      interval_cases s <;> exact ⟨_, rfl⟩
    obtain ⟨handler, hh⟩ := hex
    refine ⟨handler, hh, ?_⟩
    rw [perform_instruction_eq, dispatch_layoutMemory cpu p s v1 v2 v3 v4 v5 hi hs,
      callTable5_some _ _ _ hh]
  · have hex : ∃ handler, RI_insts[s]? = some handler := by
      interval_cases s <;> exact ⟨_, rfl⟩
    obtain ⟨handler, hh⟩ := hex
    refine ⟨handler, hh, ?_⟩
    rw [perform_instruction_eq, dispatch_layoutRegister cpu p s v1 v2 v3 v4 hi hs,
      callTable4_some _ _ _ hh]
  · have hex : ∃ handler, II_insts[s]? = some handler := by
      interval_cases s <;> exact ⟨_, rfl⟩
    obtain ⟨handler, hh⟩ := hex
    refine ⟨handler, hh, ?_⟩
    rw [perform_instruction_eq,
      dispatch_layoutImmediate cpu p s v1 v2 v3 v4 v5 hi (by omega), callTable5_some _ _ _ hh]

theorem decoder_recovers_layout_witness :
    (∃ handler, MI_insts[3]? = some handler ∧
      perform_instruction zeroCPU (layoutMemory 0 9 3 1 2 3 4 5 6) =
        (handler zeroCPU 1 2 3 4 5).bind advance) ∧
    (∃ handler, RI_insts[3]? = some handler ∧
      perform_instruction zeroCPU (layoutRegister 0 9 3 1 2 3 4 6) =
        (handler zeroCPU 1 2 3 4).bind advance) ∧
    (∃ handler, II_insts[3]? = some handler ∧
      perform_instruction zeroCPU (layoutImmediate 0 9 3 1 2 3 4 5 6) =
        (handler zeroCPU 1 2 3 4 5).bind advance) :=
  ⟨(decoder_recovers_layout zeroCPU 9 3 1 2 3 4 5 6).1 (by decide),
   (decoder_recovers_layout zeroCPU 9 3 1 2 3 4 5 6).2.1 (by decide),
   (decoder_recovers_layout zeroCPU 9 3 1 2 3 4 5 6).2.2 (by decide)⟩

/-- C7: a word whose family selector (bits 9-10) is 3 runs no handler: `perform_instruction`
returns normally (no halt) in the state that differs from the old one only in
`program_counter`, which is the old value plus 8 modulo 2^32. -/
theorem reserved_family_only_advances (cpu : CPU) (w : Nat) (hfam : w / 512 % 4 = 3) :
    perform_instruction cpu w =
      Outcome.next { cpu with program_counter := toWord32 (cpu.program_counter.val + 8) } := by
  have hdis : dispatch cpu w = Outcome.next cpu := by
    unfold dispatch
    simp [hfam]
  rw [perform_instruction_eq, hdis]
  exact advance_eq cpu

theorem reserved_family_only_advances_witness :
    perform_instruction predicateCPU 1536 =
      Outcome.next
        { predicateCPU with program_counter := toWord32 (predicateCPU.program_counter.val + 8) } :=
  reserved_family_only_advances predicateCPU 1536 (by decide)

/-! ## Faults: out-of-range addresses, division by zero, undefined sub-opcodes -/

theorem writeMem_out_of_range (cpu : CPU) (a : Word32) (v : Byte) (h : 2 ^ 30 ≤ a.val) :
    writeMem cpu a v = Outcome.undefined := by
  have hsz : PHYSICAL_MEMORY_SIZE = 2 ^ 30 := by decide
  unfold writeMem
  rw [dif_neg (by omega)]

theorem readMem_out_of_range (cpu : CPU) (a : Word32) (h : 2 ^ 30 ≤ a.val) :
    readMem cpu a = none := by
  have hsz : PHYSICAL_MEMORY_SIZE = 2 ^ 30 := by decide
  unfold readMem
  rw [dif_neg (by omega)]

/-- C4, as stated, fails: a `StoreMemoryImmediate` to address 2^30 (bytes 64, 0, 0, 0) does not
produce a fault; the handler indexes `memory` at 2^30, outside the array. -/
theorem store_out_of_range_counterexample :
    perform_instruction zeroCPU (layoutMemory 0 0 3 64 0 0 0 0 0) = Outcome.undefined := rfl

/-- C4, amended: when the big-endian address of a Memory-family instruction is at least 2^30,
no fault is raised and no successor state is produced: each of the four handlers, and
`perform_instruction` on the corresponding word, indexes `memory` at that address, outside the
array, which is undefined behaviour. The address is assembled from register contents for
sub-opcodes 0 and 2 and from the literal bytes for sub-opcodes 1 and 3. -/
theorem memory_access_out_of_range_undefined (cpu : CPU) (p : Byte) (v1 v2 v3 v4 v5 : Byte)
    (hi : Nat) :
    (2 ^ 30 ≤ bigEndian32 (cpu.registers v1) (cpu.registers v2) (cpu.registers v3)
        (cpu.registers v4) →
      MILoadMemoryRegister cpu v1 v2 v3 v4 v5 = Outcome.undefined ∧
      MIStoreMemoryRegister cpu v1 v2 v3 v4 v5 = Outcome.undefined ∧
      perform_instruction cpu (layoutMemory 0 p 0 v1 v2 v3 v4 v5 hi) = Outcome.undefined ∧
      perform_instruction cpu (layoutMemory 0 p 2 v1 v2 v3 v4 v5 hi) = Outcome.undefined) ∧
    (2 ^ 30 ≤ bigEndian32 v1 v2 v3 v4 →
      MILoadMemoryImmediate cpu v1 v2 v3 v4 v5 = Outcome.undefined ∧
      MIStoreMemoryImmediate cpu v1 v2 v3 v4 v5 = Outcome.undefined ∧
      perform_instruction cpu (layoutMemory 0 p 1 v1 v2 v3 v4 v5 hi) = Outcome.undefined ∧
      perform_instruction cpu (layoutMemory 0 p 3 v1 v2 v3 v4 v5 hi) = Outcome.undefined) := by
  constructor
  · intro h
    rw [← quad_val] at h
    have e0 : MILoadMemoryRegister cpu v1 v2 v3 v4 v5 = Outcome.undefined := by
      unfold MILoadMemoryRegister reg
      exact writeMem_out_of_range _ _ _ h
    have e2 : MIStoreMemoryRegister cpu v1 v2 v3 v4 v5 = Outcome.undefined := by
      unfold MIStoreMemoryRegister reg
      exact writeMem_out_of_range _ _ _ h
    refine ⟨e0, e2, ?_, ?_⟩
    · rw [perform_instruction_eq, dispatch_layoutMemory cpu p 0 v1 v2 v3 v4 v5 hi (by decide),
        callTable5_some _ _ MILoadMemoryRegister rfl, e0]
      rfl
    · rw [perform_instruction_eq, dispatch_layoutMemory cpu p 2 v1 v2 v3 v4 v5 hi (by decide),
        callTable5_some _ _ MIStoreMemoryRegister rfl, e2]
      rfl
  · intro h
    rw [← quad_val] at h
    have e1 : MILoadMemoryImmediate cpu v1 v2 v3 v4 v5 = Outcome.undefined := by
      unfold MILoadMemoryImmediate
      simp only [readMem_out_of_range _ _ h]
    have e3 : MIStoreMemoryImmediate cpu v1 v2 v3 v4 v5 = Outcome.undefined := by
      unfold MIStoreMemoryImmediate
      exact writeMem_out_of_range _ _ _ h
    refine ⟨e1, e3, ?_, ?_⟩
    · rw [perform_instruction_eq, dispatch_layoutMemory cpu p 1 v1 v2 v3 v4 v5 hi (by decide),
        callTable5_some _ _ MILoadMemoryImmediate rfl, e1]
      rfl
    · rw [perform_instruction_eq, dispatch_layoutMemory cpu p 3 v1 v2 v3 v4 v5 hi (by decide),
        callTable5_some _ _ MIStoreMemoryImmediate rfl, e3]
      rfl

theorem memory_access_out_of_range_undefined_witness :
    (MILoadMemoryRegister highCPU 0 1 1 1 5 = Outcome.undefined ∧
      MIStoreMemoryRegister highCPU 0 1 1 1 5 = Outcome.undefined ∧
      perform_instruction highCPU (layoutMemory 0 0 0 0 1 1 1 5 0) = Outcome.undefined ∧
      perform_instruction highCPU (layoutMemory 0 0 2 0 1 1 1 5 0) = Outcome.undefined) ∧
    (MILoadMemoryImmediate zeroCPU 64 0 0 0 5 = Outcome.undefined ∧
      MIStoreMemoryImmediate zeroCPU 64 0 0 0 5 = Outcome.undefined ∧
      perform_instruction zeroCPU (layoutMemory 0 0 1 64 0 0 0 5 0) = Outcome.undefined ∧
      perform_instruction zeroCPU (layoutMemory 0 0 3 64 0 0 0 5 0) = Outcome.undefined) :=
  ⟨(memory_access_out_of_range_undefined highCPU 0 0 1 1 1 5 0).1 (by decide),
   (memory_access_out_of_range_undefined zeroCPU 0 64 0 0 0 5 0).2 (by decide)⟩

/-- C5, as stated, fails: with a zero divisor register `DivRegisterRegister` and
`ModRegisterRegister` do not produce a fault; both evaluate a division by zero, which is
undefined behaviour. -/
theorem division_by_zero_counterexample :
    RIDivRegisterRegister zeroCPU 0 1 2 0 = Outcome.undefined ∧
    RIModRegisterRegister zeroCPU 0 1 2 0 = Outcome.undefined := ⟨rfl, rfl⟩

/-- C5, amended: when the divisor register holds 0, `DivRegisterRegister` and
`ModRegisterRegister` raise no fault and produce no successor state, whatever the dividend:
the handlers, and `perform_instruction` on the words of sub-opcodes 12 and 15 of the
Register/ALU family, evaluate a division or modulo by zero, which is undefined behaviour. -/
theorem division_by_zero_undefined (cpu : CPU) (p : Byte) (d a b v4 : Byte) (hi : Nat)
    (hzero : cpu.registers b = 0) :
    RIDivRegisterRegister cpu d a b v4 = Outcome.undefined ∧
    RIModRegisterRegister cpu d a b v4 = Outcome.undefined ∧
    perform_instruction cpu (layoutRegister 0 p 12 d a b v4 hi) = Outcome.undefined ∧
    perform_instruction cpu (layoutRegister 0 p 15 d a b v4 hi) = Outcome.undefined := by
  have ediv : RIDivRegisterRegister cpu d a b v4 = Outcome.undefined := by
    unfold RIDivRegisterRegister divByte reg
    rw [hzero]; rfl
  have emod : RIModRegisterRegister cpu d a b v4 = Outcome.undefined := by
    unfold RIModRegisterRegister modByte reg
    rw [hzero]; rfl
  refine ⟨ediv, emod, ?_, ?_⟩
  · rw [perform_instruction_eq, dispatch_layoutRegister cpu p 12 d a b v4 hi (by decide),
      callTable4_some _ _ RIDivRegisterRegister rfl, ediv]
    rfl
  · rw [perform_instruction_eq, dispatch_layoutRegister cpu p 15 d a b v4 hi (by decide),
      callTable4_some _ _ RIModRegisterRegister rfl, emod]
    rfl

theorem division_by_zero_undefined_witness :
    RIDivRegisterRegister jumpCPU 0 3 2 0 = Outcome.undefined ∧
    RIModRegisterRegister jumpCPU 0 3 2 0 = Outcome.undefined ∧
    perform_instruction jumpCPU (layoutRegister 0 0 12 0 3 2 0 0) = Outcome.undefined ∧
    perform_instruction jumpCPU (layoutRegister 0 0 15 0 3 2 0 0) = Outcome.undefined :=
  division_by_zero_undefined jumpCPU 0 0 3 2 0 0 rfl

/-- C6, at the failing input: the unpredicated word with family 2 and sub-opcode 15 passes
the dispatcher's bound check `func < RegisterInstructionSize` (15 < 23) and indexes
`II_insts`, which has 15 entries, at position 15: the outcome is undefined behaviour, not
the state with only `program_counter` advanced. -/
theorem immediate_subopcode_15_indexes_past_table (cpu : CPU) :
    perform_instruction cpu (layoutImmediate 0 0 15 0 0 0 0 0 0) = Outcome.undefined := by
  rw [perform_instruction_eq, dispatch_layoutImmediate cpu 0 15 0 0 0 0 0 0 (by decide)]
  rfl

/-! ## Jumps -/

/-- C8: an unpredicated `JumpImmediateQuad` (Immediate family, sub-opcode 0) run through
`perform_instruction` returns in the state that differs from the old one only in
`program_counter`, which is the old value plus the big-endian value of the four immediate
bytes, modulo 2^32. -/
theorem jump_immediate_quad_net (cpu : CPU) (p : Byte) (b0 b1 b2 b3 v5 : Byte) (hi : Nat) :
    perform_instruction cpu (layoutImmediate 0 p 0 b0 b1 b2 b3 v5 hi) =
      Outcome.next
        { cpu with
          program_counter := toWord32 (cpu.program_counter.val + bigEndian32 b0 b1 b2 b3) } := by
  have hk := bigEndian32_lt b0 b1 b2 b3
  have hq := quad_val b0 b1 b2 b3
  have hpc := cpu.program_counter.isLt
  have e : toWord32 ((sub32 (add32 cpu.program_counter (quad b0 b1 b2 b3)) (toWord32 8)).val + 8)
      = toWord32 (cpu.program_counter.val + bigEndian32 b0 b1 b2 b3) := by
    apply toWord32_congr
    simp only [add32, sub32, toWord32, hq]
    omega
  rw [perform_instruction_eq, dispatch_layoutImmediate cpu p 0 b0 b1 b2 b3 v5 hi (by decide),
    callTable5_some _ _ IIJumpImmediateQuad rfl]
  unfold IIJumpImmediateQuad
  simp only [Outcome.bind, advance_eq, e]

theorem jump_back_step (cpu : CPU) (q : Word32) :
    toWord32 ((sub32 (sub32 cpu.program_counter q) (toWord32 8)).val + 8)
      = toWord32 (cpu.program_counter.val + (4294967296 - q.val)) := by
  have hq := q.isLt
  have hpc := cpu.program_counter.isLt
  apply toWord32_congr
  simp only [sub32, toWord32]
  omega

/-- Sub-opcodes 1, 2 and 3 of the Immediate family all subtract the register quad. -/
theorem jump_register_quads_net (cpu : CPU) (p : Byte) (s : Nat) (v1 v2 v3 v4 v5 : Byte)
    (hi : Nat) (hs : s = 1 ∨ s = 2 ∨ s = 3) :
    perform_instruction cpu (layoutImmediate 0 p s v1 v2 v3 v4 v5 hi) =
      Outcome.next
        { cpu with
          program_counter := toWord32 (cpu.program_counter.val +
            (4294967296 - bigEndian32 (reg cpu v1) (reg cpu v2) (reg cpu v3) (reg cpu v4))) } := by
  have e := jump_back_step cpu (quad (reg cpu v1) (reg cpu v2) (reg cpu v3) (reg cpu v4))
  rw [quad_val] at e
  rcases hs with h | h | h <;> subst h
  · rw [perform_instruction_eq, dispatch_layoutImmediate cpu p 1 v1 v2 v3 v4 v5 hi (by decide),
      callTable5_some _ _ IIJumpRegisterQuad rfl]
    unfold IIJumpRegisterQuad
    simp only [Outcome.bind, advance_eq, e]
  · rw [perform_instruction_eq, dispatch_layoutImmediate cpu p 2 v1 v2 v3 v4 v5 hi (by decide),
      callTable5_some _ _ IIJumpBackRegisterQuad rfl]
    unfold IIJumpBackRegisterQuad
    simp only [Outcome.bind, advance_eq, e]
  · rw [perform_instruction_eq, dispatch_layoutImmediate cpu p 3 v1 v2 v3 v4 v5 hi (by decide),
      callTable5_some _ _ IIJumpBackRegisterQuad rfl]
    unfold IIJumpBackRegisterQuad
    simp only [Outcome.bind, advance_eq, e]

/-- C9, at the failing input: with registers 0, 1, 2 holding 0, register 3 holding 8 and
`program_counter` = 16, the unpredicated `JumpRegisterQuad` on fields (0, 1, 2, 3), whose
offset is 8, leaves `program_counter` at 8 (a net change of -8), not at 24. -/
theorem jump_register_quad_goes_backwards :
    bigEndian32 (reg jumpCPU 0) (reg jumpCPU 1) (reg jumpCPU 2) (reg jumpCPU 3) = 8 ∧
    perform_instruction jumpCPU (layoutImmediate 0 0 1 0 1 2 3 0 0) =
      Outcome.next { jumpCPU with program_counter := 8 } := by
  have h := jump_register_quads_net jumpCPU 0 1 0 1 2 3 0 0 (Or.inl rfl)
  have e : toWord32 (jumpCPU.program_counter.val +
      (4294967296 - bigEndian32 (reg jumpCPU 0) (reg jumpCPU 1) (reg jumpCPU 2) (reg jumpCPU 3)))
      = 8 := by decide
  rw [e] at h
  exact ⟨by decide, h⟩

/-- C10, at the failing input: with registers 0, 1, 2 holding 0, register 3 holding 8 and
`program_counter` = 16, the unpredicated word of sub-opcode 2 (`JumpBackImmediateQuad`) with
immediate bytes (0, 0, 0, 3), whose offset is 3, leaves `program_counter` at 8 and not at
13: the table entry is `IIJumpBackRegisterQuad`, which reads the bytes as register indices. -/
theorem jump_back_immediate_reads_registers :
    bigEndian32 0 0 0 3 = 3 ∧
    II_insts[2]? = some IIJumpBackRegisterQuad ∧
    perform_instruction jumpCPU (layoutImmediate 0 0 2 0 0 0 3 0 0) =
      Outcome.next { jumpCPU with program_counter := 8 } := by
  have h := jump_register_quads_net jumpCPU 0 2 0 0 0 3 0 0 (Or.inr (Or.inl rfl))
  have e : toWord32 (jumpCPU.program_counter.val +
      (4294967296 - bigEndian32 (reg jumpCPU 0) (reg jumpCPU 0) (reg jumpCPU 0) (reg jumpCPU 3)))
      = 8 := by decide
  rw [e] at h
  exact ⟨by decide, rfl, h⟩

/-! ## Register/ALU arithmetic -/

theorem reg_setReg_same (cpu : CPU) (i v : Byte) : reg (setReg cpu i v) i = v := by
  unfold reg setReg
  exact Function.update_same i v cpu.registers

theorem reg_setReg_other (cpu : CPU) (i j v : Byte) (h : j ≠ i) :
    reg (setReg cpu i v) j = reg cpu j := by
  unfold reg setReg
  exact Function.update_noteq h v cpu.registers

theorem and_255 (x : Nat) : x &&& 255 = x % 256 :=
  Nat.and_pow_two_sub_one_eq_mod x 8

/-- C16: after `AddImmediate(d, src, i)` the destination register holds
`(old registers[src] + i) mod 256`, whether or not `d = src`. -/
theorem add_immediate_wraps (cpu : CPU) (d src i v4 : Byte) :
    ∃ c, RIAddImmediate cpu d src i v4 = Outcome.next c ∧
      (reg c d).val = ((reg cpu src).val + i.val) % 256 := by
  refine ⟨setReg cpu d (toByte ((reg cpu src).val + i.val)), rfl, ?_⟩
  rw [reg_setReg_same]
  rfl

/-- C17: for `AddRegisterSaveCarry(d, c, a, b)` with `d ≠ c`, afterwards
`registers[d] + 256 * registers[c]` is exactly `old registers[a] + old registers[b]`, with
`registers[d]` the low byte of the sum and `registers[c]` 0 or 1; `a` and `b` may coincide
with `d` or `c`. -/
theorem add_register_save_carry_exact (cpu : CPU) (d c a b : Byte) (hdc : d ≠ c) :
    ∃ st, RIAddRegisterSaveCarry cpu d c a b = Outcome.next st ∧
      (reg st d).val + 256 * (reg st c).val = (reg cpu a).val + (reg cpu b).val ∧
      (reg st d).val = ((reg cpu a).val + (reg cpu b).val) % 256 ∧
      (reg st c).val ≤ 1 := by
  have ha := (reg cpu a).isLt
  have hb := (reg cpu b).isLt
  refine ⟨_, rfl, ?_⟩
  rw [reg_setReg_other _ c d _ hdc, reg_setReg_same, reg_setReg_same]
  simp only [toByte, toWord16, and_255, Nat.shiftRight_eq_div_pow]
  omega

theorem add_register_save_carry_exact_witness :
    ∃ st, RIAddRegisterSaveCarry jumpCPU 3 4 3 3 = Outcome.next st ∧
      (reg st 3).val + 256 * (reg st 4).val = (reg jumpCPU 3).val + (reg jumpCPU 3).val ∧
      (reg st 3).val = ((reg jumpCPU 3).val + (reg jumpCPU 3).val) % 256 ∧
      (reg st 4).val ≤ 1 :=
  add_register_save_carry_exact jumpCPU 3 4 3 3 (by decide)

/-! ## Stack and memory -/

theorem memSize_eq : PHYSICAL_MEMORY_SIZE = 1073741824 := by decide

theorem readMem_in_range (cpu : CPU) (a : Word32) (h : a.val < PHYSICAL_MEMORY_SIZE) :
    readMem cpu a = some (cpu.memory ⟨a.val, h⟩) := by
  unfold readMem
  rw [dif_pos h]

theorem writeMem_in_range (cpu : CPU) (a : Word32) (v : Byte)
    (h : a.val < PHYSICAL_MEMORY_SIZE) :
    writeMem cpu a v =
      Outcome.next { cpu with memory := Function.update cpu.memory ⟨a.val, h⟩ v } := by
  unfold writeMem
  rw [dif_pos h]

theorem readMem_set_stack (cpu : CPU) (x a : Word32) :
    readMem { cpu with stack_address := x } a = readMem cpu a := by
  unfold readMem
  rfl

/-- `PopStack` when the byte below the stack cursor is known. -/
theorem popStack_of_read (cpu : CPU) (v1 v2 v3 v4 v5 n : Byte)
    (hlo : 1 ≤ cpu.stack_address.val)
    (hread : readMem cpu (toWord32 (cpu.stack_address.val - 1)) = some n) :
    ∃ sa : Word32,
      IIPopStack cpu v1 v2 v3 v4 v5 = Outcome.next { cpu with stack_address := sa } ∧
      (sa.val : Int) = ((cpu.stack_address.val : Int) - 1 - min (n.val : Int) 4) % 4294967296 := by
  have hs := cpu.stack_address.isLt
  have hn := n.isLt
  have e1 : sub32 cpu.stack_address (toWord32 1) = toWord32 (cpu.stack_address.val - 1) := by
    apply Fin.ext
    simp only [sub32, toWord32]
    omega
  refine ⟨sub32 (toWord32 (cpu.stack_address.val - 1))
      (toWord32 (if n.val ≥ 4 then 4 else n.val)), ?_, ?_⟩
  · unfold IIPopStack
    simp only [e1, readMem_set_stack, hread]
  · simp only [sub32, toWord32]
    split <;> omega

/-- C13: with `1 ≤ stack_address = s ≤ 2^30`, `PopStack` reads `n = memory[s - 1]` and returns
with `stack_address = s - 1 - min(n, 4)` modulo 2^32, for every byte `n`; nothing else
changes, in particular no register and no memory byte. -/
theorem pop_stack_retreats (cpu : CPU) (v1 v2 v3 v4 v5 : Byte)
    (hlo : 1 ≤ cpu.stack_address.val) (hhi : cpu.stack_address.val ≤ 2 ^ 30) :
    ∃ n : Byte, ∃ sa : Word32,
      readMem cpu (toWord32 (cpu.stack_address.val - 1)) = some n ∧
      IIPopStack cpu v1 v2 v3 v4 v5 = Outcome.next { cpu with stack_address := sa } ∧
      (sa.val : Int) = ((cpu.stack_address.val : Int) - 1 - min (n.val : Int) 4) % 4294967296 := by
  have hs := cpu.stack_address.isLt
  have hin : (toWord32 (cpu.stack_address.val - 1)).val < PHYSICAL_MEMORY_SIZE := by
    rw [memSize_eq]
    simp only [toWord32]
    omega
  have hread := readMem_in_range cpu _ hin
  obtain ⟨sa, e, hsa⟩ := popStack_of_read cpu v1 v2 v3 v4 v5 _ hlo hread
  exact ⟨_, sa, hread, e, hsa⟩

theorem pop_stack_retreats_witness :
    ∃ n : Byte, ∃ sa : Word32,
      readMem stackCPU (toWord32 (stackCPU.stack_address.val - 1)) = some n ∧
      IIPopStack stackCPU 0 0 0 0 0 = Outcome.next { stackCPU with stack_address := sa } ∧
      (sa.val : Int)
        = ((stackCPU.stack_address.val : Int) - 1 - min (n.val : Int) 4) % 4294967296 :=
  pop_stack_retreats stackCPU 0 0 0 0 0 (by decide) (by decide)

theorem store_immediate_in_range (cpu : CPU) (b0 b1 b2 b3 s : Byte)
    (h : (quad b0 b1 b2 b3).val < PHYSICAL_MEMORY_SIZE) :
    MIStoreMemoryImmediate cpu b0 b1 b2 b3 s =
      Outcome.next
        { cpu with memory := Function.update cpu.memory ⟨(quad b0 b1 b2 b3).val, h⟩ (reg cpu s) } := by
  unfold MIStoreMemoryImmediate
  exact writeMem_in_range cpu _ _ h

theorem load_immediate_in_range (cpu : CPU) (b0 b1 b2 b3 d : Byte)
    (h : (quad b0 b1 b2 b3).val < PHYSICAL_MEMORY_SIZE) :
    MILoadMemoryImmediate cpu b0 b1 b2 b3 d =
      Outcome.next (setReg cpu d (cpu.memory ⟨(quad b0 b1 b2 b3).val, h⟩)) := by
  unfold MILoadMemoryImmediate
  simp only [readMem_in_range cpu _ h]

/-- C15: for an immediate address `addr = (b0<<24)|(b1<<16)|(b2<<8)|b3 < 2^30`,
`StoreMemoryImmediate(b0, b1, b2, b3, s)` followed by `LoadMemoryImmediate(b0, b1, b2, b3, d)`
returns in a state where `registers[d]` is the old `registers[s]`, every other register is
unchanged, `memory[addr]` is the old `registers[s]` and every other memory byte is
unchanged. -/
theorem store_load_immediate_roundtrip (cpu : CPU) (b0 b1 b2 b3 s d : Byte)
    (haddr : bigEndian32 b0 b1 b2 b3 < 2 ^ 30) :
    ∃ c, (MIStoreMemoryImmediate cpu b0 b1 b2 b3 s).bind
          (fun c1 => MILoadMemoryImmediate c1 b0 b1 b2 b3 d) = Outcome.next c ∧
      reg c d = reg cpu s ∧
      (∀ r : Byte, r ≠ d → reg c r = reg cpu r) ∧
      readMem c (toWord32 (bigEndian32 b0 b1 b2 b3)) = some (reg cpu s) ∧
      (∀ i : Fin PHYSICAL_MEMORY_SIZE, i.val ≠ bigEndian32 b0 b1 b2 b3 →
        c.memory i = cpu.memory i) := by
  have hq := quad_val b0 b1 b2 b3
  have h : (quad b0 b1 b2 b3).val < PHYSICAL_MEMORY_SIZE := by
    rw [memSize_eq, hq]; omega
  have hw : toWord32 (bigEndian32 b0 b1 b2 b3) = quad b0 b1 b2 b3 := by
    apply Fin.ext
    rw [hq]
    exact toWord32_val_small (bigEndian32_lt b0 b1 b2 b3)
  rw [store_immediate_in_range cpu b0 b1 b2 b3 s h]
  simp only [Outcome.bind]
  rw [load_immediate_in_range _ b0 b1 b2 b3 d h]
  refine ⟨_, rfl, ?_, ?_, ?_, ?_⟩
  · rw [reg_setReg_same]
    exact Function.update_same _ _ _
  · intro r hr
    rw [reg_setReg_other _ d r _ hr]
    rfl
  · rw [hw]
    unfold readMem
    rw [dif_pos h]
    exact congrArg some (Function.update_same _ _ _)
  · intro i hi
    have hne : i ≠ ⟨(quad b0 b1 b2 b3).val, h⟩ := by
      intro e
      apply hi
      rw [e, hq]
    exact Function.update_noteq hne _ _

theorem store_load_immediate_roundtrip_witness :
    ∃ c, (MIStoreMemoryImmediate loadCPU 63 255 255 255 5).bind
          (fun c1 => MILoadMemoryImmediate c1 63 255 255 255 9) = Outcome.next c ∧
      reg c 9 = reg loadCPU 5 ∧
      (∀ r : Byte, r ≠ 9 → reg c r = reg loadCPU r) ∧
      readMem c (toWord32 (bigEndian32 63 255 255 255)) = some (reg loadCPU 5) ∧
      (∀ i : Fin PHYSICAL_MEMORY_SIZE, i.val ≠ bigEndian32 63 255 255 255 →
        c.memory i = loadCPU.memory i) :=
  store_load_immediate_roundtrip loadCPU 63 255 255 255 5 9 (by decide)

theorem Outcome.bind_next (o : Outcome) : o.bind Outcome.next = o := by
  cases o <;> rfl

theorem pushSwitch_eq_pushBytes (val1 b1 b2 b3 bDefault b0 : Byte) (cpu : CPU) :
    pushSwitch val1 b1 b2 b3 bDefault b0 cpu =
      pushBytes (pushedBytes val1 b1 b2 b3 bDefault b0) cpu := by
  unfold pushSwitch pushedBytes
  split <;> simp only [pushBytes, Outcome.bind_next]

theorem pushByte_spec (cpu : CPU) (v : Byte) (h : cpu.stack_address.val + 1 ≤ 2 ^ 30) :
    ∃ c, pushByte cpu v = Outcome.next c ∧
      c.stack_address.val = cpu.stack_address.val + 1 ∧
      readMem c cpu.stack_address = some v ∧
      (∀ a : Word32, a ≠ cpu.stack_address → readMem c a = readMem cpu a) ∧
      agreeOffStack c cpu := by
  have hin : cpu.stack_address.val < PHYSICAL_MEMORY_SIZE := by
    rw [memSize_eq]; omega
  unfold pushByte
  rw [writeMem_in_range cpu _ v hin]
  refine ⟨_, rfl, ?_, ?_, ?_, ?_⟩
  · simp only [add32, toWord32]
    omega
  · unfold readMem
    rw [dif_pos hin]
    exact congrArg some (Function.update_same _ _ _)
  · intro a ha
    unfold readMem
    by_cases hlt : a.val < PHYSICAL_MEMORY_SIZE
    · rw [dif_pos hlt, dif_pos hlt]
      have hne : (⟨a.val, hlt⟩ : Fin PHYSICAL_MEMORY_SIZE) ≠ ⟨cpu.stack_address.val, hin⟩ := by
        intro e
        exact ha (Fin.ext (Fin.mk.inj e))
      exact congrArg some (Function.update_noteq hne _ _)
    · rw [dif_neg hlt, dif_neg hlt]
  · exact ⟨rfl, rfl, rfl, rfl, rfl, rfl⟩

theorem agreeOffStack_trans {a b c : CPU} (h1 : agreeOffStack a b) (h2 : agreeOffStack b c) :
    agreeOffStack a c := by
  obtain ⟨p1, p2, p3, p4, p5, p6⟩ := h1
  obtain ⟨q1, q2, q3, q4, q5, q6⟩ := h2
  exact ⟨p1.trans q1, p2.trans q2, p3.trans q3, p4.trans q4, p5.trans q5, p6.trans q6⟩

theorem toWord32_self (a : Word32) : toWord32 a.val = a := by
  apply Fin.ext
  exact toWord32_val_small a.isLt

/-- Pushing a list of bytes that fits below 2^30 stores them at consecutive addresses from
the old `stack_address` and moves `stack_address` past them; nothing else changes. -/
theorem pushBytes_spec (l : List Byte) :
    ∀ cpu : CPU, cpu.stack_address.val + l.length ≤ 2 ^ 30 →
      ∃ c, pushBytes l cpu = Outcome.next c ∧
        c.stack_address.val = cpu.stack_address.val + l.length ∧
        (∀ i, i < l.length → readMem c (toWord32 (cpu.stack_address.val + i)) = l[i]?) ∧
        (∀ a : Word32, a.val < cpu.stack_address.val ∨
            cpu.stack_address.val + l.length ≤ a.val → readMem c a = readMem cpu a) ∧
        agreeOffStack c cpu := by
  induction l with
  | nil =>
    intro cpu _
    refine ⟨cpu, rfl, rfl, ?_, fun _ _ => rfl, ⟨rfl, rfl, rfl, rfl, rfl, rfl⟩⟩
    intro i hi
    exact absurd hi (Nat.not_lt_zero i)
  | cons b bs ih =>
    intro cpu hfit
    have hlen : (b :: bs).length = bs.length + 1 := rfl
    rw [hlen] at hfit
    obtain ⟨c1, e1, hs1, hr1, hf1, ha1⟩ := pushByte_spec cpu b (by omega)
    obtain ⟨c, e, hs, hr, hf, ha⟩ := ih c1 (by omega)
    refine ⟨c, ?_, ?_, ?_, ?_, agreeOffStack_trans ha ha1⟩
    · show (pushByte cpu b).bind (pushBytes bs) = Outcome.next c
      rw [e1]
      exact e
    · rw [hs, hs1, hlen]; omega
    · intro i hi
      rw [hlen] at hi
      cases i with
      | zero =>
        have h0 : readMem c (toWord32 (cpu.stack_address.val + 0)) = readMem c1 cpu.stack_address := by
          rw [Nat.add_zero, toWord32_self]
          exact hf _ (Or.inl (by omega))
        rw [h0, hr1]
        simp
      | succ j =>
        have hj := hr j (by omega)
        rw [hs1] at hj
        have ea : cpu.stack_address.val + 1 + j = cpu.stack_address.val + (j + 1) := by omega
        rw [ea] at hj
        rw [hj]
        simp
    · intro a hcond
      rw [hlen] at hcond
      have hne : a ≠ cpu.stack_address := by
        intro e2
        rw [e2] at hcond
        omega
      rw [hf a (by omega), hf1 a hne]

/-- C11, at the failing input: from the zeroed machine (`stack_address` = 0),
`PushStackImmediateArguments` with count 1 and value bytes 10, 20, 30, 40 runs every
statement of the `switch` from `case 1` down: it writes 10, 20, 30, 40, 1 to `memory[0..4]`
and leaves `stack_address` = 5, where the claim has `memory[0]` = 10, `memory[1]` = 1 and
`stack_address` = 2. -/
theorem push_immediate_count_one_writes_five :
    ∃ c, IIPushStackImmediateArguments zeroCPU 1 10 20 30 40 = Outcome.next c ∧
      c.stack_address.val = 5 ∧
      readMem c (toWord32 0) = some 10 ∧ readMem c (toWord32 1) = some 20 ∧
      readMem c (toWord32 2) = some 30 ∧ readMem c (toWord32 3) = some 40 ∧
      readMem c (toWord32 4) = some 1 := by
  have hl : pushedBytes 1 10 20 30 40 1 = [10, 20, 30, 40, 1] := rfl
  have hz : zeroCPU.stack_address.val = 0 := rfl
  obtain ⟨c, e, hs, hr, _, _⟩ := pushBytes_spec [10, 20, 30, 40, 1] zeroCPU (by decide)
  rw [hz] at hs hr
  refine ⟨c, ?_, hs, ?_, ?_, ?_, ?_, ?_⟩
  · unfold IIPushStackImmediateArguments
    rw [pushSwitch_eq_pushBytes, hl]
    exact e
  · exact hr 0 (by decide)
  · exact hr 1 (by decide)
  · exact hr 2 (by decide)
  · exact hr 3 (by decide)
  · exact hr 4 (by decide)

/-- C12, at the failing input: from the zeroed machine (`stack_address` = 0), pushing a frame
with count 1 (value bytes 10, 20, 30, 40) and then popping leaves `stack_address` = 3, not 0:
the push advances by 5 and the pop, reading the count 1, retreats by 2. -/
theorem push_pop_count_one_not_restored :
    zeroCPU.stack_address.val = 0 ∧
    ∃ c, (IIPushStackImmediateArguments zeroCPU 1 10 20 30 40).bind
          (fun c1 => IIPopStack c1 0 0 0 0 0) = Outcome.next c ∧
      c.stack_address.val = 3 := by
  have hl : pushedBytes 1 10 20 30 40 1 = [10, 20, 30, 40, 1] := rfl
  have hz : zeroCPU.stack_address.val = 0 := rfl
  obtain ⟨c1, e, hs, hr, _, _⟩ := pushBytes_spec [10, 20, 30, 40, 1] zeroCPU (by decide)
  rw [hz] at hs hr
  have hs5 : c1.stack_address.val = 5 := hs
  have h4 : readMem c1 (toWord32 (c1.stack_address.val - 1)) = some 1 := by
    rw [hs5]
    exact hr 4 (by decide)
  obtain ⟨sa, e2, hsa⟩ := popStack_of_read c1 0 0 0 0 0 1 (by omega) h4
  refine ⟨rfl, { c1 with stack_address := sa }, ?_, ?_⟩
  · unfold IIPushStackImmediateArguments
    rw [pushSwitch_eq_pushBytes, hl, e]
    exact e2
  · rw [hs5] at hsa
    have h1 : ((1 : Byte).val : Int) = 1 := rfl
    rw [h1] at hsa
    show sa.val = 3
    omega

/-- C14, at the failing input: with memory all zero, registers 0..4 holding 0 and register 5
holding 7, the unpredicated `LoadMemoryRegister` word with fields (0, 0, 0, 0, 5), whose
address is 0, leaves `registers[5]` = 7 and sets `memory[0]` = 7, where the claim has
`registers[5]` = `memory[0]` = 0 and memory unchanged: the handler has the body of
`MIStoreMemoryRegister`. -/
theorem load_memory_register_stores :
    readMem loadCPU (toWord32 0) = some 0 ∧ reg loadCPU 5 = 7 ∧
    bigEndian32 (reg loadCPU 0) (reg loadCPU 0) (reg loadCPU 0) (reg loadCPU 0) = 0 ∧
    MILoadMemoryRegister = MIStoreMemoryRegister ∧
    ∃ c, perform_instruction loadCPU (layoutMemory 0 0 0 0 0 0 0 5 0) = Outcome.next c ∧
      readMem c (toWord32 0) = some 7 ∧ reg c 5 = 7 := by
  have hq : quad (reg loadCPU 0) (reg loadCPU 0) (reg loadCPU 0) (reg loadCPU 0) = toWord32 0 := by
    apply Fin.ext
    rw [quad_val]
    decide
  have hin : (toWord32 0).val < PHYSICAL_MEMORY_SIZE := by decide
  have h5 : reg loadCPU 5 = 7 := by decide
  refine ⟨by decide, h5, by decide, rfl, ?_⟩
  rw [perform_instruction_eq, dispatch_layoutMemory loadCPU 0 0 0 0 0 0 5 0 (by decide),
    callTable5_some _ _ MILoadMemoryRegister rfl]
  unfold MILoadMemoryRegister
  simp only [hq, h5, writeMem_in_range loadCPU _ _ hin, Outcome.bind, advance_eq]
  refine ⟨_, rfl, ?_, ?_⟩
  · unfold readMem
    rw [dif_pos hin]
    exact congrArg some
      (Function.update_same (⟨(toWord32 0).val, hin⟩ : Fin PHYSICAL_MEMORY_SIZE) 7
        loadCPU.memory)
  · exact h5

/-! ## A four-instruction program -/

theorem reg_set_pc (c : CPU) (x : Word32) (i : Byte) :
    reg { c with program_counter := x } i = reg c i := rfl

/-- One step of `LoadImmediate d <- v`. -/
theorem step_load_immediate (cpu : CPU) (d v : Byte) :
    ∃ c, perform_instruction cpu (layoutRegister 0 0 0 d v 0 0 0) = Outcome.next c ∧
      c.program_counter = toWord32 (cpu.program_counter.val + 8) ∧
      reg c d = v ∧ (∀ r : Byte, r ≠ d → reg c r = reg cpu r) ∧
      c.exception_reason = cpu.exception_reason ∧
      c.errored_program_counter = cpu.errored_program_counter := by
  rw [perform_instruction_eq, dispatch_layoutRegister cpu 0 0 d v 0 0 0 (by decide),
    callTable4_some _ _ RILoadImmediate rfl]
  unfold RILoadImmediate
  simp only [Outcome.bind, advance_eq]
  refine ⟨_, rfl, rfl, ?_, ?_, rfl, rfl⟩
  · rw [reg_set_pc, reg_setReg_same]
  · intro r hr
    rw [reg_set_pc, reg_setReg_other _ d r _ hr]

/-- One step of `AddRegister d <- a + b`. -/
theorem step_add_register (cpu : CPU) (d a b : Byte) :
    ∃ c, perform_instruction cpu (layoutRegister 0 0 3 d a b 0 0) = Outcome.next c ∧
      c.program_counter = toWord32 (cpu.program_counter.val + 8) ∧
      reg c d = toByte ((reg cpu a).val + (reg cpu b).val) ∧
      (∀ r : Byte, r ≠ d → reg c r = reg cpu r) ∧
      c.exception_reason = cpu.exception_reason ∧
      c.errored_program_counter = cpu.errored_program_counter := by
  rw [perform_instruction_eq, dispatch_layoutRegister cpu 0 3 d a b 0 0 (by decide),
    callTable4_some _ _ RIAddRegister rfl]
  unfold RIAddRegister
  simp only [Outcome.bind, advance_eq]
  refine ⟨_, rfl, rfl, ?_, ?_, rfl, rfl⟩
  · rw [reg_set_pc, reg_setReg_same]
  · intro r hr
    rw [reg_set_pc, reg_setReg_other _ d r _ hr]

/-- One step of `HaltRegisterQuad`. -/
theorem step_halt_register (cpu : CPU) (v1 v2 v3 v4 : Byte) :
    perform_instruction cpu (layoutImmediate 0 0 5 v1 v2 v3 v4 0 0) =
      Outcome.exit (quad (reg cpu v1) (reg cpu v2) (reg cpu v3) (reg cpu v4)) := by
  rw [perform_instruction_eq, dispatch_layoutImmediate cpu 0 5 v1 v2 v3 v4 0 0 (by decide),
    callTable5_some _ _ IIHaltRegisterQuad rfl]
  rfl

theorem byte_ne_of_three_le (h r : Byte) (hge : 3 ≤ h.val) (hr : r.val < 3) : h ≠ r := by
  intro e
  rw [e] at hge
  omega

/-- C18, as stated, fails: on the zeroed machine every register holds 0, so the halt quad may
name register 0 for its three high bytes; that register holds 5 when the halt executes and
the run ends with halt code `5 * 2^24 + 5 * 2^16 + 5 * 2^8 + 12 = 84215052`, not 12. -/
theorem program_halt_code_counterexample :
    reg zeroCPU 0 = 0 ∧
    ∃ c1 c2 c3,
      perform_instruction zeroCPU (layoutRegister 0 0 0 0 5 0 0 0) = Outcome.next c1 ∧
      perform_instruction c1 (layoutRegister 0 0 0 1 7 0 0 0) = Outcome.next c2 ∧
      perform_instruction c2 (layoutRegister 0 0 3 2 0 1 0 0) = Outcome.next c3 ∧
      perform_instruction c3 (layoutImmediate 0 0 5 0 0 0 2 0 0) =
        Outcome.exit (toWord32 84215052) := by
  obtain ⟨c1, e1, _, r1, f1, _, _⟩ := step_load_immediate zeroCPU 0 5
  obtain ⟨c2, e2, _, r2, f2, _, _⟩ := step_load_immediate c1 1 7
  obtain ⟨c3, e3, _, r3, f3, _, _⟩ := step_add_register c2 2 0 1
  have a0 : reg c2 0 = 5 := by rw [f2 0 (by decide), r1]
  have b0 : reg c3 0 = 5 := by rw [f3 0 (by decide), a0]
  have b2 : reg c3 2 = 12 := by rw [r3, a0, r2]; decide
  refine ⟨by decide, c1, c2, c3, e1, e2, e3, ?_⟩
  rw [step_halt_register, b0, b2]
  apply congrArg Outcome.exit
  apply Fin.ext
  rw [quad_val]
  decide

/-- C18, amended: from a state in which the three registers named as the high bytes of the
halt quad hold 0 and are none of registers 0, 1, 2, the four instructions
`LoadImmediate r0 <- 5`, `LoadImmediate r1 <- 7`, `AddRegister r2 <- r0 + r1`,
`HaltRegisterQuad(h1, h2, h3, r2)` run one after the other through `perform_instruction`:
the first three return with `program_counter` advanced by 8 each and the trap fields
untouched, and the fourth exits with halt code 12. -/
theorem program_halts_with_12 (cpu : CPU) (h1 h2 h3 : Byte)
    (z1 : reg cpu h1 = 0) (z2 : reg cpu h2 = 0) (z3 : reg cpu h3 = 0)
    (d1 : 3 ≤ h1.val) (d2 : 3 ≤ h2.val) (d3 : 3 ≤ h3.val) :
    ∃ c1 c2 c3,
      perform_instruction cpu (layoutRegister 0 0 0 0 5 0 0 0) = Outcome.next c1 ∧
      perform_instruction c1 (layoutRegister 0 0 0 1 7 0 0 0) = Outcome.next c2 ∧
      perform_instruction c2 (layoutRegister 0 0 3 2 0 1 0 0) = Outcome.next c3 ∧
      perform_instruction c3 (layoutImmediate 0 0 5 h1 h2 h3 2 0 0) =
        Outcome.exit (toWord32 12) ∧
      c1.program_counter = toWord32 (cpu.program_counter.val + 8) ∧
      c2.program_counter = toWord32 (cpu.program_counter.val + 16) ∧
      c3.program_counter = toWord32 (cpu.program_counter.val + 24) ∧
      c3.exception_reason = cpu.exception_reason ∧
      c3.errored_program_counter = cpu.errored_program_counter := by
  obtain ⟨c1, e1, p1, r1, f1, x1, y1⟩ := step_load_immediate cpu 0 5
  obtain ⟨c2, e2, p2, r2, f2, x2, y2⟩ := step_load_immediate c1 1 7
  obtain ⟨c3, e3, p3, r3, f3, x3, y3⟩ := step_add_register c2 2 0 1
  have keep : ∀ h : Byte, 3 ≤ h.val → reg cpu h = 0 → reg c3 h = 0 := by
    intro h hge hz
    rw [f3 h (byte_ne_of_three_le h 2 hge (by decide)),
      f2 h (byte_ne_of_three_le h 1 hge (by decide)),
      f1 h (byte_ne_of_three_le h 0 hge (by decide)), hz]
  have a0 : reg c2 0 = 5 := by rw [f2 0 (by decide), r1]
  have b2 : reg c3 2 = 12 := by rw [r3, a0, r2]; decide
  have hpc := cpu.program_counter.isLt
  refine ⟨c1, c2, c3, e1, e2, e3, ?_, p1, ?_, ?_, ?_, ?_⟩
  · rw [step_halt_register, keep h1 d1 z1, keep h2 d2 z2, keep h3 d3 z3, b2]
    apply congrArg Outcome.exit
    apply Fin.ext
    rw [quad_val]
    decide
  · rw [p2, p1]
    apply toWord32_congr
    simp only [toWord32]
    omega
  · rw [p3, p2, p1]
    apply toWord32_congr
    simp only [toWord32]
    omega
  · rw [x3, x2, x1]
  · rw [y3, y2, y1]

theorem program_halts_with_12_witness :
    ∃ c1 c2 c3,
      perform_instruction zeroCPU (layoutRegister 0 0 0 0 5 0 0 0) = Outcome.next c1 ∧
      perform_instruction c1 (layoutRegister 0 0 0 1 7 0 0 0) = Outcome.next c2 ∧
      perform_instruction c2 (layoutRegister 0 0 3 2 0 1 0 0) = Outcome.next c3 ∧
      perform_instruction c3 (layoutImmediate 0 0 5 3 4 5 2 0 0) =
        Outcome.exit (toWord32 12) ∧
      c1.program_counter = toWord32 (zeroCPU.program_counter.val + 8) ∧
      c2.program_counter = toWord32 (zeroCPU.program_counter.val + 16) ∧
      c3.program_counter = toWord32 (zeroCPU.program_counter.val + 24) ∧
      c3.exception_reason = zeroCPU.exception_reason ∧
      c3.errored_program_counter = zeroCPU.errored_program_counter :=
  program_halts_with_12 zeroCPU 3 4 5 (by decide) (by decide) (by decide) (by decide)
    (by decide) (by decide)

/-! ## What the handlers leave untouched -/

theorem Inert.refl (cpu : CPU) : Inert cpu cpu := ⟨rfl, rfl, rfl, rfl⟩

theorem Inert.trans {a b c : CPU} (h1 : Inert a b) (h2 : Inert b c) : Inert a c := by
  obtain ⟨p1, p2, p3, p4⟩ := h1
  obtain ⟨q1, q2, q3, q4⟩ := h2
  exact ⟨q1.trans p1, q2.trans p2, q3.trans p3, q4.trans p4⟩

theorem returnsIn_returnsWith {o : Outcome} {P : CPU → Prop} (h : o.returnsIn P) :
    o.returnsWith P := by
  obtain ⟨c, e, hc⟩ := h
  rw [e]
  exact hc

theorem returnsWith_stateSatisfies {o : Outcome} {P : CPU → Prop} (h : o.returnsWith P) :
    o.stateSatisfies P := by
  cases o with
  | next c => exact h
  | exit v => trivial
  | undefined => trivial

theorem returnsWith_bind {o : Outcome} {P Q : CPU → Prop} {f : CPU → Outcome}
    (h : o.returnsWith P) (hf : ∀ c, P c → (f c).returnsWith Q) : (o.bind f).returnsWith Q := by
  cases o with
  | next c => exact hf c h
  | exit v => exact h
  | undefined => trivial

theorem inert_setReg (cpu : CPU) (i v : Byte) :
    (Outcome.next (setReg cpu i v)).returnsIn (Inert cpu) :=
  ⟨_, rfl, rfl, rfl, rfl, rfl⟩

theorem inert_setReg_twice (cpu : CPU) (i v j u : Byte) :
    (Outcome.next (setReg (setReg cpu i v) j u)).returnsIn (Inert cpu) :=
  ⟨_, rfl, rfl, rfl, rfl, rfl⟩

theorem inert_storeQuotient (cpu : CPU) (d : Byte) (q : Option Byte) :
    (storeQuotient cpu d q).returnsWith (Inert cpu) := by
  cases q with
  | none => trivial
  | some b => exact ⟨rfl, rfl, rfl, rfl⟩

theorem inert_writeMem (cpu : CPU) (a : Word32) (v : Byte) :
    (writeMem cpu a v).returnsWith (Inert cpu) := by
  unfold writeMem
  split
  · exact ⟨rfl, rfl, rfl, rfl⟩
  · trivial

theorem inert_loadImmediate (cpu : CPU) (v1 v2 v3 v4 v5 : Byte) :
    (MILoadMemoryImmediate cpu v1 v2 v3 v4 v5).returnsWith (Inert cpu) := by
  unfold MILoadMemoryImmediate
  dsimp only
  split
  · exact ⟨rfl, rfl, rfl, rfl⟩
  · trivial

/-- Every handler of the Memory family is undefined or returns with `program_counter` and the
trap fields untouched. -/
theorem inert_memory_family (cpu : CPU) (f : Nat) (v1 v2 v3 v4 v5 : Byte) (hf : f < 4) :
    (callTable5 MI_insts f cpu v1 v2 v3 v4 v5).returnsWith (Inert cpu) := by
  interval_cases f
  · exact inert_writeMem cpu _ _
  · exact inert_loadImmediate cpu v1 v2 v3 v4 v5
  · exact inert_writeMem cpu _ _
  · exact inert_writeMem cpu _ _

/-- Every handler of the Register/ALU family is undefined or returns with `program_counter`
and the trap fields untouched. -/
theorem inert_register_family (cpu : CPU) (f : Nat) (v1 v2 v3 v4 : Byte) (hf : f < 23) :
    (callTable4 RI_insts f cpu v1 v2 v3 v4).returnsWith (Inert cpu) := by
  interval_cases f <;>
    first
    | exact returnsIn_returnsWith (inert_setReg cpu _ _)
    | exact returnsIn_returnsWith (inert_setReg_twice cpu _ _ _ _)
    | exact inert_storeQuotient cpu _ _

/-- The Register/ALU handlers other than the six divide and modulo variants always return. -/
theorem register_family_returns (cpu : CPU) (f : Nat) (v1 v2 v3 v4 : Byte)
    (hf : f < 10 ∨ (16 ≤ f ∧ f < 23)) :
    (callTable4 RI_insts f cpu v1 v2 v3 v4).returnsIn (Inert cpu) := by
  have hlt : f < 23 := by omega
  interval_cases f <;>
    first
    | exact inert_setReg cpu _ _
    | exact inert_setReg_twice cpu _ _ _ _
    | omega

theorem returnsWith_mono {o : Outcome} {P Q : CPU → Prop} (h : o.returnsWith P)
    (hPQ : ∀ c, P c → Q c) : o.returnsWith Q := by
  cases o with
  | next c => exact hPQ c h
  | exit v => exact h
  | undefined => trivial

theorem inert_pushByte (cpu : CPU) (v : Byte) : (pushByte cpu v).returnsWith (Inert cpu) := by
  unfold pushByte
  apply returnsWith_bind (inert_writeMem cpu _ v)
  intro c hc
  exact ⟨hc.1, hc.2.1, hc.2.2.1, hc.2.2.2⟩

theorem inert_pushBytes (l : List Byte) :
    ∀ cpu : CPU, (pushBytes l cpu).returnsWith (Inert cpu) := by
  induction l with
  | nil => intro cpu; exact Inert.refl cpu
  | cons b bs ih =>
    intro cpu
    show ((pushByte cpu b).bind (pushBytes bs)).returnsWith (Inert cpu)
    apply returnsWith_bind (inert_pushByte cpu b)
    intro c hc
    exact returnsWith_mono (ih c) (fun c2 h2 => Inert.trans hc h2)

theorem inert_pushImmediate (cpu : CPU) (v1 v2 v3 v4 v5 : Byte) :
    (IIPushStackImmediateArguments cpu v1 v2 v3 v4 v5).returnsWith (Inert cpu) := by
  unfold IIPushStackImmediateArguments
  rw [pushSwitch_eq_pushBytes]
  exact inert_pushBytes _ cpu

theorem inert_pushRegister (cpu : CPU) (v1 v2 v3 v4 v5 : Byte) :
    (IIPushStackRegisterArguments cpu v1 v2 v3 v4 v5).returnsWith (Inert cpu) := by
  unfold IIPushStackRegisterArguments
  apply returnsWith_bind (inert_pushByte cpu _)
  intro c hc
  rw [pushSwitch_eq_pushBytes]
  exact returnsWith_mono (inert_pushBytes _ c) (fun c2 h2 => Inert.trans hc h2)

theorem inert_popStack (cpu : CPU) (v1 v2 v3 v4 v5 : Byte) :
    (IIPopStack cpu v1 v2 v3 v4 v5).returnsWith (Inert cpu) := by
  unfold IIPopStack
  dsimp only
  split
  · exact ⟨rfl, rfl, rfl, rfl⟩
  · trivial

/-- Sub-opcodes 6..22 of the Immediate family are undefined or return with `program_counter`
untouched (15..22 index past the table). -/
theorem immediate_family_keeps_pc (cpu : CPU) (f : Nat) (v1 v2 v3 v4 v5 : Byte)
    (hlo : 6 ≤ f) (hhi : f < 23) :
    (callTable5 II_insts f cpu v1 v2 v3 v4 v5).returnsWith
      (fun c => c.program_counter = cpu.program_counter) := by
  interval_cases f
  · exact rfl
  · exact rfl
  · exact returnsWith_mono (inert_pushRegister cpu v1 v2 v3 v4 v5) (fun c h => h.1)
  · exact returnsWith_mono (inert_pushImmediate cpu v1 v2 v3 v4 v5) (fun c h => h.1)
  · exact returnsWith_mono (inert_popStack cpu v1 v2 v3 v4 v5) (fun c h => h.1)
  · exact rfl
  · exact rfl
  · exact rfl
  · exact rfl
  all_goals trivial

/-- Sub-opcodes 6, 7 and 11..14 of the Immediate family always return, with
`program_counter` untouched. -/
theorem immediate_family_returns (cpu : CPU) (f : Nat) (v1 v2 v3 v4 v5 : Byte)
    (hf : f = 6 ∨ f = 7 ∨ (11 ≤ f ∧ f ≤ 14)) :
    (callTable5 II_insts f cpu v1 v2 v3 v4 v5).returnsIn
      (fun c => c.program_counter = cpu.program_counter) := by
  have hlo : 6 ≤ f := by omega
  have hhi : f < 15 := by omega
  interval_cases f
  · exact ⟨_, rfl, rfl⟩
  · exact ⟨_, rfl, rfl⟩
  · omega
  · omega
  · omega
  · exact ⟨_, rfl, rfl⟩
  · exact ⟨_, rfl, rfl⟩
  · exact ⟨_, rfl, rfl⟩
  · exact ⟨_, rfl, rfl⟩

/-- Whatever the sub-opcode, a state returned by a handler of the Immediate family has the
old `exception_reason` and `errored_program_counter`, and the old
`exception_handler_routine_address` unless the sub-opcode is 13, which stores the quad of
its four bytes there. -/
theorem immediate_family_trap_fields (cpu : CPU) (f : Nat) (v1 v2 v3 v4 v5 : Byte)
    (hhi : f < 23) :
    (callTable5 II_insts f cpu v1 v2 v3 v4 v5).stateSatisfies
      (fun c => c.exception_reason = cpu.exception_reason ∧
        c.errored_program_counter = cpu.errored_program_counter ∧
        (f = 13 → c.exception_handler_routine_address = quad v1 v2 v3 v4) ∧
        (f ≠ 13 → c.exception_handler_routine_address =
          cpu.exception_handler_routine_address)) := by
  have key : ∀ o : Outcome, o.returnsWith (Inert cpu) → f ≠ 13 →
      o.stateSatisfies
        (fun c => c.exception_reason = cpu.exception_reason ∧
          c.errored_program_counter = cpu.errored_program_counter ∧
          (f = 13 → c.exception_handler_routine_address = quad v1 v2 v3 v4) ∧
          (f ≠ 13 → c.exception_handler_routine_address =
            cpu.exception_handler_routine_address)) := by
    intro o ho hne
    cases o with
    | next c => exact ⟨ho.2.1, ho.2.2.1, fun e => absurd e hne, fun _ => ho.2.2.2⟩
    | exit v => trivial
    | undefined => trivial
  interval_cases f
  · exact ⟨rfl, rfl, fun e => absurd e (by decide), fun _ => rfl⟩
  · exact ⟨rfl, rfl, fun e => absurd e (by decide), fun _ => rfl⟩
  · exact ⟨rfl, rfl, fun e => absurd e (by decide), fun _ => rfl⟩
  · exact ⟨rfl, rfl, fun e => absurd e (by decide), fun _ => rfl⟩
  · trivial
  · trivial
  · exact ⟨rfl, rfl, fun e => absurd e (by decide), fun _ => rfl⟩
  · exact ⟨rfl, rfl, fun e => absurd e (by decide), fun _ => rfl⟩
  · exact key _ (inert_pushRegister cpu v1 v2 v3 v4 v5) (by decide)
  · exact key _ (inert_pushImmediate cpu v1 v2 v3 v4 v5) (by decide)
  · exact key _ (inert_popStack cpu v1 v2 v3 v4 v5) (by decide)
  · exact ⟨rfl, rfl, fun e => absurd e (by decide), fun _ => rfl⟩
  · exact ⟨rfl, rfl, fun e => absurd e (by decide), fun _ => rfl⟩
  · exact ⟨rfl, rfl, fun _ => rfl, fun h => absurd rfl h⟩
  · exact ⟨rfl, rfl, fun e => absurd e (by decide), fun _ => rfl⟩
  all_goals trivial

/-! ## The program counter after one step -/

theorem dispatch_keeps_pc (cpu : CPU) (w : Nat)
    (hnj : ¬ ((w % 2 = 0 ∨ reg cpu (toByte (w / 2)) ≠ 0) ∧ w / 512 % 4 = 2 ∧
      w / 2048 % 32 < 6)) :
    (dispatch cpu w).returnsWith (fun c => c.program_counter = cpu.program_counter) := by
  unfold dispatch
  by_cases hx : (w % 2 = 0 ∨ reg cpu (toByte (w / 2)) ≠ 0)
  · rw [if_pos hx]
    by_cases h0 : w / 512 % 4 = 0
    · rw [if_pos h0]
      exact returnsWith_mono
        (inert_memory_family cpu _ _ _ _ _ _ (Nat.mod_lt _ (by decide))) (fun c h => h.1)
    · rw [if_neg h0]
      by_cases h1 : w / 512 % 4 = 1
      · rw [if_pos h1]
        by_cases hf : w / 2048 % 64 < 23
        · rw [if_pos hf]
          exact returnsWith_mono (inert_register_family cpu _ _ _ _ _ hf) (fun c h => h.1)
        · rw [if_neg hf]
          exact rfl
      · rw [if_neg h1]
        by_cases h2 : w / 512 % 4 = 2
        · rw [if_pos h2]
          by_cases hf : w / 2048 % 32 < 23
          · rw [if_pos hf]
            have h6 : 6 ≤ w / 2048 % 32 := by
              by_contra hlt
              exact hnj ⟨hx, h2, by omega⟩
            exact immediate_family_keeps_pc cpu _ _ _ _ _ _ h6 hf
          · rw [if_neg hf]
            exact rfl
        · rw [if_neg h2]
          exact rfl
  · rw [if_neg hx]
    exact rfl

theorem dispatch_returns (cpu : CPU) (w : Nat)
    (hclass : ¬ (w % 2 = 0 ∨ reg cpu (toByte (w / 2)) ≠ 0) ∨ w / 512 % 4 = 3 ∨
      (w / 512 % 4 = 1 ∧ (w / 2048 % 64 < 10 ∨ 16 ≤ w / 2048 % 64)) ∨
      (w / 512 % 4 = 2 ∧ (w / 2048 % 32 = 6 ∨ w / 2048 % 32 = 7 ∨
        (11 ≤ w / 2048 % 32 ∧ w / 2048 % 32 ≤ 14) ∨ 23 ≤ w / 2048 % 32))) :
    (dispatch cpu w).returnsIn (fun c => c.program_counter = cpu.program_counter) := by
  unfold dispatch
  by_cases hx : (w % 2 = 0 ∨ reg cpu (toByte (w / 2)) ≠ 0)
  · rw [if_pos hx]
    by_cases h0 : w / 512 % 4 = 0
    · exfalso
      rcases hclass with h | h | h | h
      · exact h hx
      · omega
      · omega
      · omega
    · rw [if_neg h0]
      by_cases h1 : w / 512 % 4 = 1
      · rw [if_pos h1]
        by_cases hf : w / 2048 % 64 < 23
        · rw [if_pos hf]
          have hc : w / 2048 % 64 < 10 ∨ (16 ≤ w / 2048 % 64 ∧ w / 2048 % 64 < 23) := by
            rcases hclass with h | h | h | h
            · exact absurd hx h
            · omega
            · omega
            · omega
          obtain ⟨c, e, hc2⟩ := register_family_returns cpu _ _ _ _ _ hc
          exact ⟨c, e, hc2.1⟩
        · rw [if_neg hf]
          exact ⟨cpu, rfl, rfl⟩
      · rw [if_neg h1]
        by_cases h2 : w / 512 % 4 = 2
        · rw [if_pos h2]
          by_cases hf : w / 2048 % 32 < 23
          · rw [if_pos hf]
            have hc : w / 2048 % 32 = 6 ∨ w / 2048 % 32 = 7 ∨
                (11 ≤ w / 2048 % 32 ∧ w / 2048 % 32 ≤ 14) := by
              rcases hclass with h | h | h | h
              · exact absurd hx h
              · omega
              · omega
              · omega
            exact immediate_family_returns cpu _ _ _ _ _ _ hc
          · rw [if_neg hf]
            exact ⟨cpu, rfl, rfl⟩
        · rw [if_neg h2]
          exact ⟨cpu, rfl, rfl⟩
  · rw [if_neg hx]
    exact ⟨cpu, rfl, rfl⟩

theorem advance_after_return (cpu : CPU) (o : Outcome)
    (h : o.returnsIn (fun c => c.program_counter = cpu.program_counter)) :
    ∃ c, o.bind advance = Outcome.next c ∧
      c.program_counter = toWord32 (cpu.program_counter.val + 8) := by
  obtain ⟨c0, e, hc⟩ := h
  rw [e]
  refine ⟨_, advance_eq c0, ?_⟩
  show toWord32 (c0.program_counter.val + 8) = toWord32 (cpu.program_counter.val + 8)
  rw [hc]

theorem returnsIn_of_defined {o : Outcome} {P : CPU → Prop} (h : o.returnsWith P)
    (hd : o.bind advance ≠ Outcome.undefined) : o.returnsIn P := by
  cases o with
  | next c => exact ⟨c, rfl, h⟩
  | exit v => exact absurd h id
  | undefined => exact absurd rfl hd

/-- C19, as stated, fails: `DivRegisterRegister` is a Register/ALU instruction, and on the
zeroed machine (divisor register 2 holds 0) the step divides by zero; it has no successor
state, so `program_counter` is not set to the old value plus 8. -/
theorem division_step_has_no_successor :
    ¬ ∃ c, perform_instruction zeroCPU (layoutRegister 0 0 12 0 1 2 0 0) = Outcome.next c ∧
      c.program_counter = toWord32 (zeroCPU.program_counter.val + 8) := by
  have hcall : callTable4 RI_insts 12 zeroCPU 0 1 2 0 = Outcome.undefined := rfl
  rintro ⟨c, e, _⟩
  rw [perform_instruction_eq, dispatch_layoutRegister zeroCPU 0 12 0 1 2 0 0 (by decide),
    hcall] at e
  exact Outcome.noConfusion e

/-- C19, amended: for a word that does not dispatch to a jump or halt handler (it is not an
executed Immediate-family word with sub-opcode 0..5), whenever the step's behaviour is
defined `perform_instruction` returns with `program_counter` = old value + 8 modulo 2^32.
The step is always defined, and so always returns with that `program_counter`, for
predicated-false words, for words of the reserved family 3, for Register/ALU words whose
sub-opcode is not one of the six divide/modulo variants 10..15 (the skipped ones, 23 and up,
included) and for Immediate words with sub-opcode 6, 7, 11..14 or 23 and up. (Undefined
behaviour is left to the Memory handlers, push and pop, the divide/modulo variants and the
Immediate sub-opcodes 15..22.) -/
theorem step_advances_program_counter (cpu : CPU) (w : Nat) :
    (¬ ((w % 2 = 0 ∨ reg cpu (toByte (w / 2)) ≠ 0) ∧ w / 512 % 4 = 2 ∧ w / 2048 % 32 < 6) →
      perform_instruction cpu w ≠ Outcome.undefined →
      ∃ c, perform_instruction cpu w = Outcome.next c ∧
        c.program_counter = toWord32 (cpu.program_counter.val + 8)) ∧
    ((¬ (w % 2 = 0 ∨ reg cpu (toByte (w / 2)) ≠ 0) ∨ w / 512 % 4 = 3 ∨
        (w / 512 % 4 = 1 ∧ (w / 2048 % 64 < 10 ∨ 16 ≤ w / 2048 % 64)) ∨
        (w / 512 % 4 = 2 ∧ (w / 2048 % 32 = 6 ∨ w / 2048 % 32 = 7 ∨
          (11 ≤ w / 2048 % 32 ∧ w / 2048 % 32 ≤ 14) ∨ 23 ≤ w / 2048 % 32))) →
      ∃ c, perform_instruction cpu w = Outcome.next c ∧
        c.program_counter = toWord32 (cpu.program_counter.val + 8)) := by
  constructor
  · intro hnj hdef
    rw [perform_instruction_eq] at hdef ⊢
    exact advance_after_return cpu _ (returnsIn_of_defined (dispatch_keeps_pc cpu w hnj) hdef)
  · intro hclass
    rw [perform_instruction_eq]
    exact advance_after_return cpu _ (dispatch_returns cpu w hclass)

theorem step_advances_program_counter_witness :
    (∃ c, perform_instruction zeroCPU (layoutRegister 0 0 0 0 5 0 0 0) = Outcome.next c ∧
        c.program_counter = toWord32 (zeroCPU.program_counter.val + 8)) ∧
    (∃ c, perform_instruction zeroCPU 1536 = Outcome.next c ∧
        c.program_counter = toWord32 (zeroCPU.program_counter.val + 8)) :=
  ⟨(step_advances_program_counter zeroCPU (layoutRegister 0 0 0 0 5 0 0 0)).1 (by decide)
      (by
        obtain ⟨c, e, _⟩ := step_load_immediate zeroCPU 0 5
        rw [e]
        exact fun h => Outcome.noConfusion h),
   (step_advances_program_counter zeroCPU 1536).2 (by decide)⟩

/-! ## The trap fields -/

theorem quad_eq (a b c d : Byte) : quad a b c d = toWord32 (bigEndian32 a b c d) := by
  apply Fin.ext
  rw [quad_val]
  exact (toWord32_val_small (bigEndian32_lt a b c d)).symm

theorem stateSatisfies_mono {o : Outcome} {P Q : CPU → Prop} (h : o.stateSatisfies P)
    (hPQ : ∀ c, P c → Q c) : o.stateSatisfies Q := by
  cases o with
  | next c => exact hPQ c h
  | exit v => trivial
  | undefined => trivial

/-- One step of `SetInterruptHandlerRoutineImmediate`. -/
theorem step_set_handler (cpu : CPU) (p b0 b1 b2 b3 v5 : Byte) (hi : Nat) :
    perform_instruction cpu (layoutImmediate 0 p 13 b0 b1 b2 b3 v5 hi) =
      Outcome.next
        { cpu with
          exception_handler_routine_address := toWord32 (bigEndian32 b0 b1 b2 b3),
          program_counter := toWord32 (cpu.program_counter.val + 8) } := by
  rw [perform_instruction_eq, dispatch_layoutImmediate cpu p 13 b0 b1 b2 b3 v5 hi (by decide),
    callTable5_some _ _ IISetInterruptHandlerRoutineImmediate rfl]
  unfold IISetInterruptHandlerRoutineImmediate
  simp only [Outcome.bind, advance_eq, quad_eq]

theorem dispatch_trap_fields (cpu : CPU) (w : Nat) :
    (dispatch cpu w).stateSatisfies
      (fun c => c.exception_reason = cpu.exception_reason ∧
        c.errored_program_counter = cpu.errored_program_counter ∧
        (((w % 2 = 0 ∨ reg cpu (toByte (w / 2)) ≠ 0) ∧ w / 512 % 4 = 2 ∧
            w / 2048 % 32 = 13) →
          c.exception_handler_routine_address =
            quad (toByte (w / 65536)) (toByte (w / 16777216)) (toByte (w / 4294967296))
              (toByte (w / 1099511627776))) ∧
        (¬ ((w % 2 = 0 ∨ reg cpu (toByte (w / 2)) ≠ 0) ∧ w / 512 % 4 = 2 ∧
            w / 2048 % 32 = 13) →
          c.exception_handler_routine_address = cpu.exception_handler_routine_address)) := by
  have same : ∀ o : Outcome, o.returnsWith (Inert cpu) → w / 512 % 4 ≠ 2 →
      o.stateSatisfies
        (fun c => c.exception_reason = cpu.exception_reason ∧
          c.errored_program_counter = cpu.errored_program_counter ∧
          (((w % 2 = 0 ∨ reg cpu (toByte (w / 2)) ≠ 0) ∧ w / 512 % 4 = 2 ∧
              w / 2048 % 32 = 13) →
            c.exception_handler_routine_address =
              quad (toByte (w / 65536)) (toByte (w / 16777216)) (toByte (w / 4294967296))
                (toByte (w / 1099511627776))) ∧
          (¬ ((w % 2 = 0 ∨ reg cpu (toByte (w / 2)) ≠ 0) ∧ w / 512 % 4 = 2 ∧
              w / 2048 % 32 = 13) →
            c.exception_handler_routine_address =
              cpu.exception_handler_routine_address)) := by
    intro o ho hfam
    exact stateSatisfies_mono (returnsWith_stateSatisfies ho)
      (fun c hc => ⟨hc.2.1, hc.2.2.1, fun h => absurd h.2.1 hfam, fun _ => hc.2.2.2⟩)
  have idle : ¬ ((w % 2 = 0 ∨ reg cpu (toByte (w / 2)) ≠ 0) ∧ w / 512 % 4 = 2 ∧
      w / 2048 % 32 = 13) →
      (Outcome.next cpu).stateSatisfies
        (fun c => c.exception_reason = cpu.exception_reason ∧
          c.errored_program_counter = cpu.errored_program_counter ∧
          (((w % 2 = 0 ∨ reg cpu (toByte (w / 2)) ≠ 0) ∧ w / 512 % 4 = 2 ∧
              w / 2048 % 32 = 13) →
            c.exception_handler_routine_address =
              quad (toByte (w / 65536)) (toByte (w / 16777216)) (toByte (w / 4294967296))
                (toByte (w / 1099511627776))) ∧
          (¬ ((w % 2 = 0 ∨ reg cpu (toByte (w / 2)) ≠ 0) ∧ w / 512 % 4 = 2 ∧
              w / 2048 % 32 = 13) →
            c.exception_handler_routine_address =
              cpu.exception_handler_routine_address)) :=
    fun hn => ⟨rfl, rfl, fun h => absurd h hn, fun _ => rfl⟩
  unfold dispatch
  by_cases hx : (w % 2 = 0 ∨ reg cpu (toByte (w / 2)) ≠ 0)
  · rw [if_pos hx]
    by_cases h0 : w / 512 % 4 = 0
    · rw [if_pos h0]
      exact same _ (inert_memory_family cpu _ _ _ _ _ _ (Nat.mod_lt _ (by decide)))
        (by omega)
    · rw [if_neg h0]
      by_cases h1 : w / 512 % 4 = 1
      · rw [if_pos h1]
        by_cases hf : w / 2048 % 64 < 23
        · rw [if_pos hf]
          exact same _ (inert_register_family cpu _ _ _ _ _ hf) (by omega)
        · rw [if_neg hf]
          exact idle (fun h => by omega)
      · rw [if_neg h1]
        by_cases h2 : w / 512 % 4 = 2
        · rw [if_pos h2]
          by_cases hf : w / 2048 % 32 < 23
          · rw [if_pos hf]
            exact stateSatisfies_mono (immediate_family_trap_fields cpu _ _ _ _ _ _ hf)
              (fun c hc => ⟨hc.1, hc.2.1, fun h => hc.2.2.1 h.2.2,
                fun h => hc.2.2.2 (fun e => h ⟨hx, h2, e⟩)⟩)
          · rw [if_neg hf]
            exact idle (fun h => by omega)
        · rw [if_neg h2]
          exact idle (fun h => h2 h.2.1)
  · rw [if_neg hx]
    exact idle (fun h => hx h.1)

theorem bind_advance_next {o : Outcome} {c : CPU} (h : o.bind advance = Outcome.next c) :
    ∃ c0, o = Outcome.next c0 ∧
      c = { c0 with program_counter := toWord32 (c0.program_counter.val + 8) } := by
  cases o with
  | next c0 =>
    refine ⟨c0, rfl, ?_⟩
    have e : Outcome.next { c0 with program_counter := toWord32 (c0.program_counter.val + 8) }
        = Outcome.next c := (advance_eq c0).symm.trans h
    exact (Outcome.next.inj e).symm
  | exit v => exact Outcome.noConfusion h
  | undefined => exact Outcome.noConfusion h

/-- C20: no instruction performs trap vectoring. Whatever the word, a state returned by
`perform_instruction` has the old `errored_program_counter` and `exception_reason`; its
`exception_handler_routine_address` is the old one unless the word is an executed
Immediate-family word with sub-opcode 13 (`SetInterruptHandlerRoutineImmediate`), in which
case it is the big-endian quad of the four bytes at bits 16, 24, 32, 40. Such a word always
returns. (A step that exits or is undefined returns no state.) -/
theorem no_trap_vectoring (cpu : CPU) (w : Nat) :
    (∀ c, perform_instruction cpu w = Outcome.next c →
      c.errored_program_counter = cpu.errored_program_counter ∧
      c.exception_reason = cpu.exception_reason ∧
      (((w % 2 = 0 ∨ reg cpu (toByte (w / 2)) ≠ 0) ∧ w / 512 % 4 = 2 ∧
          w / 2048 % 32 = 13) →
        c.exception_handler_routine_address =
          toWord32 (bigEndian32 (toByte (w / 2 ^ 16)) (toByte (w / 2 ^ 24))
            (toByte (w / 2 ^ 32)) (toByte (w / 2 ^ 40)))) ∧
      (¬ ((w % 2 = 0 ∨ reg cpu (toByte (w / 2)) ≠ 0) ∧ w / 512 % 4 = 2 ∧
          w / 2048 % 32 = 13) →
        c.exception_handler_routine_address = cpu.exception_handler_routine_address)) ∧
    (∀ (p b0 b1 b2 b3 v5 : Byte) (hi : Nat),
      perform_instruction cpu (layoutImmediate 0 p 13 b0 b1 b2 b3 v5 hi) =
        Outcome.next
          { cpu with
            exception_handler_routine_address := toWord32 (bigEndian32 b0 b1 b2 b3),
            program_counter := toWord32 (cpu.program_counter.val + 8) }) := by
  refine ⟨?_, fun p b0 b1 b2 b3 v5 hi => step_set_handler cpu p b0 b1 b2 b3 v5 hi⟩
  intro c hret
  rw [perform_instruction_eq] at hret
  obtain ⟨c0, e0, ec⟩ := bind_advance_next hret
  have h := dispatch_trap_fields cpu w
  rw [e0] at h
  obtain ⟨h1, h2, h3, h4⟩ := h
  rw [ec]
  refine ⟨h2, h1, fun h13 => ?_, fun hn => h4 hn⟩
  have e := h3 h13
  rw [quad_eq] at e
  exact e

theorem no_trap_vectoring_witness :
    handlerCPU.errored_program_counter = zeroCPU.errored_program_counter ∧
    handlerCPU.exception_reason = zeroCPU.exception_reason ∧
    (((handlerWord % 2 = 0 ∨ reg zeroCPU (toByte (handlerWord / 2)) ≠ 0) ∧
        handlerWord / 512 % 4 = 2 ∧ handlerWord / 2048 % 32 = 13) →
      handlerCPU.exception_handler_routine_address =
        toWord32 (bigEndian32 (toByte (handlerWord / 2 ^ 16)) (toByte (handlerWord / 2 ^ 24))
          (toByte (handlerWord / 2 ^ 32)) (toByte (handlerWord / 2 ^ 40)))) ∧
    (¬ ((handlerWord % 2 = 0 ∨ reg zeroCPU (toByte (handlerWord / 2)) ≠ 0) ∧
        handlerWord / 512 % 4 = 2 ∧ handlerWord / 2048 % 32 = 13) →
      handlerCPU.exception_handler_routine_address =
        zeroCPU.exception_handler_routine_address) :=
  (no_trap_vectoring zeroCPU handlerWord).1 handlerCPU (step_set_handler zeroCPU 0 1 2 3 4 0 0)

/-! ## More Register/ALU arithmetic -/

theorem byte_mul_le (a b : Byte) : a.val * b.val ≤ 65025 := by
  have ha : a.val ≤ 255 := by have := a.isLt; omega
  have hb : b.val ≤ 255 := by have := b.isLt; omega
  exact Nat.mul_le_mul ha hb

/-- C21: for `MulRegisterSaveCarry(d, c, x, y)` with `d ≠ c`, afterwards
`registers[d] + 256 * registers[c]` is exactly `old registers[x] * old registers[y]`: the
product fits the 16-bit intermediate, `registers[d]` is its low byte and `registers[c]` its
high byte. -/
theorem mul_register_save_carry_exact (cpu : CPU) (d c x y : Byte) (hdc : d ≠ c) :
    ∃ st, RIMulRegisterSaveCarry cpu d c x y = Outcome.next st ∧
      (reg st d).val + 256 * (reg st c).val = (reg cpu x).val * (reg cpu y).val ∧
      (reg cpu x).val * (reg cpu y).val < 65536 ∧
      (reg st d).val = (reg cpu x).val * (reg cpu y).val % 256 ∧
      (reg st c).val = (reg cpu x).val * (reg cpu y).val / 256 := by
  have hp := byte_mul_le (reg cpu y) (reg cpu x)
  have hcomm : (reg cpu x).val * (reg cpu y).val = (reg cpu y).val * (reg cpu x).val :=
    Nat.mul_comm _ _
  refine ⟨_, rfl, ?_⟩
  rw [reg_setReg_other _ c d _ hdc, reg_setReg_same, reg_setReg_same, hcomm]
  generalize (reg cpu y).val * (reg cpu x).val = prod at hp
  simp only [toByte, toWord16, and_255, Nat.shiftRight_eq_div_pow]
  omega

theorem mul_register_save_carry_exact_witness :
    ∃ st, RIMulRegisterSaveCarry jumpCPU 0 1 3 3 = Outcome.next st ∧
      (reg st 0).val + 256 * (reg st 1).val = (reg jumpCPU 3).val * (reg jumpCPU 3).val ∧
      (reg jumpCPU 3).val * (reg jumpCPU 3).val < 65536 ∧
      (reg st 0).val = (reg jumpCPU 3).val * (reg jumpCPU 3).val % 256 ∧
      (reg st 1).val = (reg jumpCPU 3).val * (reg jumpCPU 3).val / 256 :=
  mul_register_save_carry_exact jumpCPU 0 1 3 3 (by decide)

/-- C23: when `AddRegisterSaveCarry` gets the same register `d` for the low byte and for the
carry, the second write wins: afterwards `registers[d]` is the carry
`(old registers[val3] + old registers[val4]) / 256`, which is 0 or 1. -/
theorem add_register_save_carry_same_destination (cpu : CPU) (d a b : Byte) :
    ∃ st, RIAddRegisterSaveCarry cpu d d a b = Outcome.next st ∧
      (reg st d).val = ((reg cpu a).val + (reg cpu b).val) / 256 ∧
      (reg st d).val ≤ 1 := by
  have ha := (reg cpu a).isLt
  have hb := (reg cpu b).isLt
  refine ⟨_, rfl, ?_⟩
  rw [reg_setReg_same]
  simp only [toByte, toWord16, and_255, Nat.shiftRight_eq_div_pow]
  omega

theorem storeQuotient_div (cpu : CPU) (d a b : Byte) (hb : b.val ≠ 0) :
    storeQuotient cpu d (divByte a b) = Outcome.next (setReg cpu d (toByte (a.val / b.val))) := by
  unfold divByte
  rw [if_neg hb]
  rfl

theorem storeQuotient_mod (cpu : CPU) (d a b : Byte) (hb : b.val ≠ 0) :
    storeQuotient cpu d (modByte a b) = Outcome.next (setReg cpu d (toByte (a.val % b.val))) := by
  unfold modByte
  rw [if_neg hb]
  rfl

theorem byte_val_ne_zero {b : Byte} (h : b ≠ 0) : b.val ≠ 0 := by
  intro e
  exact h (Fin.ext e)

/-- C22: with a non-zero divisor register `b`, `DivRegisterRegister(d, a, b)` writes the
unsigned quotient `q` of `registers[a]` by `registers[b]` to `registers[d]` and
`ModRegisterRegister(d2, a, b)`, from the same state, writes the remainder `m` to
`registers[d2]`: `q * registers[b] + m = registers[a]` and `m < registers[b]`; each
instruction changes nothing but its destination register. -/
theorem div_mod_register_quotient_remainder (cpu : CPU) (d d2 a b v4 : Byte)
    (hb : reg cpu b ≠ 0) :
    ∃ q m : Byte,
      RIDivRegisterRegister cpu d a b v4 = Outcome.next (setReg cpu d q) ∧
      RIModRegisterRegister cpu d2 a b v4 = Outcome.next (setReg cpu d2 m) ∧
      q.val * (reg cpu b).val + m.val = (reg cpu a).val ∧
      m.val < (reg cpu b).val ∧
      q.val = (reg cpu a).val / (reg cpu b).val ∧
      m.val = (reg cpu a).val % (reg cpu b).val ∧
      (∀ r : Byte, r ≠ d → reg (setReg cpu d q) r = reg cpu r) ∧
      (∀ r : Byte, r ≠ d2 → reg (setReg cpu d2 m) r = reg cpu r) := by
  have hbv := byte_val_ne_zero hb
  have ha := (reg cpu a).isLt
  have hpos : 0 < (reg cpu b).val := Nat.pos_of_ne_zero hbv
  have hq : (reg cpu a).val / (reg cpu b).val ≤ (reg cpu a).val := Nat.div_le_self _ _
  have hm : (reg cpu a).val % (reg cpu b).val < (reg cpu b).val := Nat.mod_lt _ hpos
  have hblt := (reg cpu b).isLt
  have hqv : (toByte ((reg cpu a).val / (reg cpu b).val)).val
      = (reg cpu a).val / (reg cpu b).val := by
    show (reg cpu a).val / (reg cpu b).val % 256 = _
    exact Nat.mod_eq_of_lt (by omega)
  have hmv : (toByte ((reg cpu a).val % (reg cpu b).val)).val
      = (reg cpu a).val % (reg cpu b).val := by
    show (reg cpu a).val % (reg cpu b).val % 256 = _
    exact Nat.mod_eq_of_lt (by omega)
  refine ⟨toByte ((reg cpu a).val / (reg cpu b).val),
    toByte ((reg cpu a).val % (reg cpu b).val), ?_, ?_, ?_, ?_, hqv, hmv, ?_, ?_⟩
  · exact storeQuotient_div cpu d (reg cpu a) (reg cpu b) hbv
  · exact storeQuotient_mod cpu d2 (reg cpu a) (reg cpu b) hbv
  · rw [hqv, hmv]
    exact Nat.div_add_mod' _ _
  · rw [hmv]
    exact hm
  · intro r hr
    exact reg_setReg_other cpu d r _ hr
  · intro r hr
    exact reg_setReg_other cpu d2 r _ hr

theorem div_mod_register_quotient_remainder_witness :
    ∃ q m : Byte,
      RIDivRegisterRegister divCPU 2 0 1 0 = Outcome.next (setReg divCPU 2 q) ∧
      RIModRegisterRegister divCPU 3 0 1 0 = Outcome.next (setReg divCPU 3 m) ∧
      q.val * (reg divCPU 1).val + m.val = (reg divCPU 0).val ∧
      m.val < (reg divCPU 1).val ∧
      q.val = (reg divCPU 0).val / (reg divCPU 1).val ∧
      m.val = (reg divCPU 0).val % (reg divCPU 1).val ∧
      (∀ r : Byte, r ≠ 2 → reg (setReg divCPU 2 q) r = reg divCPU r) ∧
      (∀ r : Byte, r ≠ 3 → reg (setReg divCPU 3 m) r = reg divCPU r) :=
  div_mod_register_quotient_remainder divCPU 2 3 0 1 0 (by decide)

/-! ## The three register-quad jumps -/

/-- C26: sub-opcodes 1 (`JumpRegisterQuad`), 2 (`JumpBackImmediateQuad`) and 3
(`JumpBackRegisterQuad`) of the Immediate family behave identically: run through
`perform_instruction`, each returns in the state that differs from the old one only in
`program_counter`, which is the old value minus `Q` modulo 2^32, `Q` being the big-endian
value of `registers[v1]`, `registers[v2]`, `registers[v3]`, `registers[v4]`. -/
theorem register_quad_jumps_identical (cpu : CPU) (p v1 v2 v3 v4 v5 : Byte) (hi : Nat) :
    ∃ target : Word32,
      (target.val : Int) = ((cpu.program_counter.val : Int) -
        (bigEndian32 (reg cpu v1) (reg cpu v2) (reg cpu v3) (reg cpu v4) : Nat)) % 4294967296 ∧
      perform_instruction cpu (layoutImmediate 0 p 1 v1 v2 v3 v4 v5 hi) =
        Outcome.next { cpu with program_counter := target } ∧
      perform_instruction cpu (layoutImmediate 0 p 2 v1 v2 v3 v4 v5 hi) =
        Outcome.next { cpu with program_counter := target } ∧
      perform_instruction cpu (layoutImmediate 0 p 3 v1 v2 v3 v4 v5 hi) =
        Outcome.next { cpu with program_counter := target } := by
  have hq := bigEndian32_lt (reg cpu v1) (reg cpu v2) (reg cpu v3) (reg cpu v4)
  have hpc := cpu.program_counter.isLt
  refine ⟨toWord32 (cpu.program_counter.val +
      (4294967296 - bigEndian32 (reg cpu v1) (reg cpu v2) (reg cpu v3) (reg cpu v4))), ?_,
    jump_register_quads_net cpu p 1 v1 v2 v3 v4 v5 hi (Or.inl rfl),
    jump_register_quads_net cpu p 2 v1 v2 v3 v4 v5 hi (Or.inr (Or.inl rfl)),
    jump_register_quads_net cpu p 3 v1 v2 v3 v4 v5 hi (Or.inr (Or.inr rfl))⟩
  simp only [toWord32]
  omega

/-! ## Push followed by pop -/

theorem pushedBytes_length (v b1 b2 b3 bDefault b0 : Byte) :
    (pushedBytes v b1 b2 b3 bDefault b0).length =
      if v.val = 1 then 5 else if v.val = 2 then 4 else if v.val = 3 then 3
      else if v.val = 0 then 1 else 2 := by
  unfold pushedBytes
  split <;> simp_all

theorem pushedBytes_last (v b1 b2 b3 bDefault b0 : Byte) :
    (pushedBytes v b1 b2 b3 bDefault b0)[(pushedBytes v b1 b2 b3 bDefault b0).length - 1]? =
      some b0 := by
  unfold pushedBytes
  split <;> rfl

/-- C25: with `3 ≤ stack_address = s` and `s + 5 ≤ 2^30`, `PushStackImmediateArguments`
followed by `PopStack` leaves `stack_address` equal to `s` if and only if `val1 = 0`: the
push advances by 5, 4, 3, 1 for `val1` = 1, 2, 3, 0 and by 2 for `val1 ≥ 4`, writing `val1`
last, and the pop retreats by `1 + min(val1, 4)`. -/
theorem push_pop_restores_iff_zero (cpu : CPU) (val1 val2 val3 val4 val5 : Byte)
    (w1 w2 w3 w4 w5 : Byte)
    (hlo : 3 ≤ cpu.stack_address.val) (hhi : cpu.stack_address.val + 5 ≤ 2 ^ 30) :
    ∃ c1 c2,
      IIPushStackImmediateArguments cpu val1 val2 val3 val4 val5 = Outcome.next c1 ∧
      IIPopStack c1 w1 w2 w3 w4 w5 = Outcome.next c2 ∧
      c1.stack_address.val = cpu.stack_address.val +
        (if val1.val = 1 then 5 else if val1.val = 2 then 4 else if val1.val = 3 then 3
         else if val1.val = 0 then 1 else 2) ∧
      readMem c1 (toWord32 (c1.stack_address.val - 1)) = some val1 ∧
      c2.stack_address.val + (1 + min val1.val 4) = c1.stack_address.val ∧
      (c2.stack_address = cpu.stack_address ↔ val1 = 0) := by
  have hlen := pushedBytes_length val1 val2 val3 val4 val5 val1
  have hlast := pushedBytes_last val1 val2 val3 val4 val5 val1
  have hv := val1.isLt
  have hle : (pushedBytes val1 val2 val3 val4 val5 val1).length ≤ 5 := by
    rw [hlen]; split_ifs <;> omega
  have hge : 1 ≤ (pushedBytes val1 val2 val3 val4 val5 val1).length := by
    rw [hlen]; split_ifs <;> omega
  obtain ⟨c1, e1, hs, hr, _, _⟩ :=
    pushBytes_spec (pushedBytes val1 val2 val3 val4 val5 val1) cpu (by omega)
  have hread : readMem c1 (toWord32 (c1.stack_address.val - 1)) = some val1 := by
    have h := hr ((pushedBytes val1 val2 val3 val4 val5 val1).length - 1) (by omega)
    rw [hlast] at h
    have ea : c1.stack_address.val - 1 = cpu.stack_address.val +
        ((pushedBytes val1 val2 val3 val4 val5 val1).length - 1) := by omega
    rw [ea]
    exact h
  obtain ⟨sa, e2, hsa⟩ := popStack_of_read c1 w1 w2 w3 w4 w5 val1 (by omega) hread
  have hc1 : c1.stack_address.val = cpu.stack_address.val +
      (if val1.val = 1 then 5 else if val1.val = 2 then 4 else if val1.val = 3 then 3
       else if val1.val = 0 then 1 else 2) := by
    rw [hs, hlen]
  have hsalt := sa.isLt
  have hback : sa.val + (1 + min val1.val 4) = c1.stack_address.val ∧
      (sa.val = cpu.stack_address.val ↔ val1.val = 0) := by
    rw [hc1] at hsa ⊢
    split_ifs at hsa ⊢ <;> omega
  refine ⟨c1, { c1 with stack_address := sa }, ?_, e2, hc1, hread, hback.1, ?_⟩
  · unfold IIPushStackImmediateArguments
    rw [pushSwitch_eq_pushBytes]
    exact e1
  · show sa = cpu.stack_address ↔ val1 = 0
    constructor
    · intro h
      exact Fin.ext (hback.2.1 (congrArg Fin.val h))
    · intro h
      exact Fin.ext (hback.2.2 (congrArg Fin.val h))

theorem push_pop_restores_iff_zero_witness :
    ∃ c1 c2,
      IIPushStackImmediateArguments framedCPU 4 10 20 30 40 = Outcome.next c1 ∧
      IIPopStack c1 0 0 0 0 0 = Outcome.next c2 ∧
      c1.stack_address.val = framedCPU.stack_address.val +
        (if (4 : Byte).val = 1 then 5 else if (4 : Byte).val = 2 then 4
         else if (4 : Byte).val = 3 then 3 else if (4 : Byte).val = 0 then 1 else 2) ∧
      readMem c1 (toWord32 (c1.stack_address.val - 1)) = some 4 ∧
      c2.stack_address.val + (1 + min (4 : Byte).val 4) = c1.stack_address.val ∧
      (c2.stack_address = framedCPU.stack_address ↔ (4 : Byte) = 0) :=
  push_pop_restores_iff_zero framedCPU 4 10 20 30 40 0 0 0 0 0 (by decide) (by decide)

/-! ## The frame of the Register/ALU family -/

theorem frame_setReg (cpu : CPU) (i v : Byte) (written : Byte → Prop) (hi : written i) :
    RegisterFrame cpu (setReg cpu i v) written := by
  refine ⟨rfl, rfl, rfl, rfl, rfl, rfl, ?_⟩
  intro r hr
  have hne : r ≠ i := fun e => hr (e ▸ hi)
  exact reg_setReg_other cpu i r v hne

theorem frame_setReg_twice (cpu : CPU) (i v j u : Byte) (written : Byte → Prop)
    (hi : written i) (hj : written j) :
    RegisterFrame cpu (setReg (setReg cpu i v) j u) written := by
  refine ⟨rfl, rfl, rfl, rfl, rfl, rfl, ?_⟩
  intro r hr
  have hni : r ≠ i := fun e => hr (e ▸ hi)
  have hnj : r ≠ j := fun e => hr (e ▸ hj)
  rw [reg_setReg_other _ j r u hnj]
  exact reg_setReg_other cpu i r v hni

theorem register_family_frame_handlers (cpu : CPU) (f : Nat) (v1 v2 v3 v4 : Byte)
    (hf : f < 23)
    (hdivReg : f = 10 ∨ f = 12 ∨ f = 13 ∨ f = 15 → reg cpu v3 ≠ 0)
    (hdivImm : f = 11 ∨ f = 14 → v3 ≠ 0) :
    (callTable4 RI_insts f cpu v1 v2 v3 v4).returnsIn
      (fun c => RegisterFrame cpu c
        (fun r => r = v1 ∨ ((f = 4 ∨ f = 5 ∨ f = 8 ∨ f = 9) ∧ r = v2))) := by
  interval_cases f
  case «10» =>
    have hb := byte_val_ne_zero (hdivReg (by decide))
    show (storeQuotient cpu v1 (divByte v2 (reg cpu v3))).returnsIn _
    rw [storeQuotient_div _ _ _ _ hb]
    exact ⟨_, rfl, frame_setReg cpu v1 _ _ (Or.inl rfl)⟩
  case «11» =>
    have hb := byte_val_ne_zero (hdivImm (by decide))
    show (storeQuotient cpu v1 (divByte (reg cpu v2) v3)).returnsIn _
    rw [storeQuotient_div _ _ _ _ hb]
    exact ⟨_, rfl, frame_setReg cpu v1 _ _ (Or.inl rfl)⟩
  case «12» =>
    have hb := byte_val_ne_zero (hdivReg (by decide))
    show (storeQuotient cpu v1 (divByte (reg cpu v2) (reg cpu v3))).returnsIn _
    rw [storeQuotient_div _ _ _ _ hb]
    exact ⟨_, rfl, frame_setReg cpu v1 _ _ (Or.inl rfl)⟩
  case «13» =>
    have hb := byte_val_ne_zero (hdivReg (by decide))
    show (storeQuotient cpu v1 (modByte v2 (reg cpu v3))).returnsIn _
    rw [storeQuotient_mod _ _ _ _ hb]
    exact ⟨_, rfl, frame_setReg cpu v1 _ _ (Or.inl rfl)⟩
  case «14» =>
    have hb := byte_val_ne_zero (hdivImm (by decide))
    show (storeQuotient cpu v1 (modByte (reg cpu v2) v3)).returnsIn _
    rw [storeQuotient_mod _ _ _ _ hb]
    exact ⟨_, rfl, frame_setReg cpu v1 _ _ (Or.inl rfl)⟩
  case «15» =>
    have hb := byte_val_ne_zero (hdivReg (by decide))
    show (storeQuotient cpu v1 (modByte (reg cpu v2) (reg cpu v3))).returnsIn _
    rw [storeQuotient_mod _ _ _ _ hb]
    exact ⟨_, rfl, frame_setReg cpu v1 _ _ (Or.inl rfl)⟩
  all_goals
    first
    | exact ⟨_, rfl, frame_setReg cpu v1 _ _ (Or.inl rfl)⟩
    | exact ⟨_, rfl, frame_setReg_twice cpu v1 _ v2 _ _ (Or.inl rfl) (Or.inr ⟨by decide, rfl⟩)⟩

/-- C24: an unpredicated Register/ALU word with a defined sub-opcode `f` (0..22) and, for the
six divide/modulo variants, a non-zero divisor (`registers[val3]` for sub-opcodes 10, 12,
13, 15, the immediate `val3` for 11 and 14) returns with memory, `stack_address`,
`exception_handler_routine_address`, `exception_reason`, `errored_program_counter` and the
output unchanged, and with every register unchanged other than the one named by `val1` and,
for the four SaveCarry variants (sub-opcodes 4, 5, 8, 9) only, the one named by `val2`. -/
theorem register_family_frame (cpu : CPU) (p : Byte) (f : Nat) (v1 v2 v3 v4 : Byte) (hi : Nat)
    (hf : f < 23)
    (hdivReg : f = 10 ∨ f = 12 ∨ f = 13 ∨ f = 15 → reg cpu v3 ≠ 0)
    (hdivImm : f = 11 ∨ f = 14 → v3 ≠ 0) :
    ∃ c, perform_instruction cpu (layoutRegister 0 p f v1 v2 v3 v4 hi) = Outcome.next c ∧
      c.memory = cpu.memory ∧ c.stack_address = cpu.stack_address ∧
      c.exception_handler_routine_address = cpu.exception_handler_routine_address ∧
      c.exception_reason = cpu.exception_reason ∧
      c.errored_program_counter = cpu.errored_program_counter ∧
      c.output = cpu.output ∧
      ∀ r : Byte, r ≠ v1 → ¬ ((f = 4 ∨ f = 5 ∨ f = 8 ∨ f = 9) ∧ r = v2) →
        reg c r = reg cpu r := by
  obtain ⟨c0, e0, m1, m2, m3, m4, m5, m6, hr⟩ :=
    register_family_frame_handlers cpu f v1 v2 v3 v4 hf hdivReg hdivImm
  rw [perform_instruction_eq, dispatch_layoutRegister cpu p f v1 v2 v3 v4 hi hf, e0]
  refine ⟨_, advance_eq c0, m1, m2, m3, m4, m5, m6, ?_⟩
  intro r h1 h2
  rw [reg_set_pc]
  exact hr r (fun h => h.elim h1 h2)

theorem register_family_frame_witness :
    ∃ c, perform_instruction divCPU (layoutRegister 0 0 12 2 0 1 0 0) = Outcome.next c ∧
      c.memory = divCPU.memory ∧ c.stack_address = divCPU.stack_address ∧
      c.exception_handler_routine_address = divCPU.exception_handler_routine_address ∧
      c.exception_reason = divCPU.exception_reason ∧
      c.errored_program_counter = divCPU.errored_program_counter ∧
      c.output = divCPU.output ∧
      ∀ r : Byte, r ≠ 2 → ¬ ((12 = 4 ∨ 12 = 5 ∨ 12 = 8 ∨ 12 = 9) ∧ r = 0) →
        reg c r = reg divCPU r :=
  register_family_frame divCPU 0 12 2 0 1 0 0 (by decide) (fun _ => by decide)
    (fun h => by omega)

end DerpVM
